import Mathlib

/-!
Verification of the AVI RIFF timestamp tooling (chunk locator, Canon
timestamp codec, time-delta parsers, and the in-place patchers).

Files are modelled as lists of byte values (`List Nat`, each entry < 256 in
intended use).  ASCII strings are modelled the same way.  Python integers are
unbounded, so they are modelled by `Nat`/`Int` directly; `timedelta` values
are modelled as exact signed microsecond counts.
-/

namespace ImageTools

/-- Byte values of the 4-byte tag `b"IDIT"`. -/
def iditTag : List Nat := [73, 68, 73, 84]

/-- `leadsAt pat s` : `pat` occurs at the head of `s` (byte-exact). -/
def leadsAt : List Nat → List Nat → Bool
  | [], _ => true
  | _ :: _, [] => false
  | p :: ps, d :: ds => (p == d) && leadsAt ps ds

/-- `bytearray.find(pat)` for a nonempty pattern: index of the first
occurrence of `pat` as a contiguous subsequence, `none` when absent
(Python returns -1). -/
def findSub (pat : List Nat) : List Nat → Option Nat
  | [] => none
  | d :: ds =>
    if leadsAt pat (d :: ds) then some 0
    else (findSub pat ds).map (· + 1)

/-- Little-endian 32-bit value of a 4-byte list (`struct.unpack("<L", ·)`). -/
def readLE32 (bs : List Nat) : Nat :=
  bs.getD 0 0 + 256 * bs.getD 1 0 + 65536 * bs.getD 2 0 + 16777216 * bs.getD 3 0

/--
`find_idit_chunk` from `avi_riff_utils.py` / `avi_riff_date_fixer.py`:
scan for the first `b"IDIT"`, read the following 4-byte little-endian size,
and return `(position, payload)` unless any bound check fails.
`none` models Python's `(None, None)`.
-/
def find_idit_chunk (data : List Nat) : Option (Nat × List Nat) :=
  match findSub iditTag data with
  | none => none
  | some pos =>
    if data.length ≤ pos + 4 then none
    else
      let size_bytes := (data.drop (pos + 4)).take 4
      if size_bytes.length ≠ 4 then none
      else
        let chunk_size := readLE32 size_bytes
        let date_start := pos + 8
        let date_end := date_start + chunk_size
        if data.length < date_end then none
        else some (pos, (data.drop date_start).take chunk_size)

/--
`MetadataTimeChanger._find_idit_chunk`: same scan, but it calls
`struct.unpack("<L", data[pos+4:pos+8])` without first checking that four
size bytes exist, so with 1–3 bytes after the tag the slice is short and
`struct.unpack` raises `struct.error` (modelled as `Except.error ()`).
-/
def changer_find_idit_chunk (data : List Nat) :
    Except Unit (Option (Nat × List Nat)) :=
  match findSub iditTag data with
  | none => .ok none
  | some pos =>
    if data.length ≤ pos + 4 then .ok none
    else
      let size_bytes := (data.drop (pos + 4)).take 4
      if size_bytes.length ≠ 4 then .error ()
      else
        let chunk_size := readLE32 size_bytes
        let date_start := pos + 8
        let date_end := date_start + chunk_size
        if data.length < date_end then .ok none
        else .ok (some (pos, (data.drop date_start).take chunk_size))

/-! ### Byte classification and Python string primitives -/

/-- ASCII whitespace, the set matched by `str.strip()` and regex `\s`
for ASCII text: space, TAB, LF, CR, VT, FF. -/
def isWsB (b : Nat) : Bool :=
  b == 32 || b == 9 || b == 10 || b == 13 || b == 11 || b == 12

/-- ASCII decimal digit. -/
def isDigitB (b : Nat) : Bool := 48 ≤ b && b ≤ 57

/-- ASCII letter (`[a-zA-Z]`). -/
def isLetterB (b : Nat) : Bool := (65 ≤ b && b ≤ 90) || (97 ≤ b && b ≤ 122)

/-- `str.lower()` on one ASCII byte. -/
def toLowerB (b : Nat) : Nat := if 65 ≤ b && b ≤ 90 then b + 32 else b

/-- Strip leading ASCII whitespace. -/
def dropLeadWs (s : List Nat) : List Nat := s.dropWhile isWsB

/-- Strip trailing ASCII whitespace. -/
def dropTrailWs (s : List Nat) : List Nat := (s.reverse.dropWhile isWsB).reverse

/-- Python `str.strip()` (ASCII). -/
def pyStrip (s : List Nat) : List Nat := dropTrailWs (dropLeadWs s)

/-- Numeric value of a digit string (most significant first). -/
def fieldVal (ds : List Nat) : Nat := ds.foldl (fun a b => 10 * a + (b - 48)) 0

/-- Python `str.isdigit()` for ASCII strings: nonempty and all digits. -/
def pyIsdigit (s : List Nat) : Bool := !s.isEmpty && s.all isDigitB

/-- Decimal digit bytes of `n`, most significant first (fuel-driven so the
kernel can evaluate it; fuel `n+1` always suffices). -/
def natDigitsAux : Nat → Nat → List Nat
  | 0, _ => []
  | fuel + 1, n => if n < 10 then [48 + n] else natDigitsAux fuel (n / 10) ++ [48 + n % 10]

/-- Decimal digit bytes of `n`, most significant first. -/
def natDigits (n : Nat) : List Nat := natDigitsAux (n + 1) n

/-! ### `MetadataTimeChanger.parse_time_adjustment` -/

/-- The exceptions the two time parsers can raise: the changer's own
`TimeParsingError`, the `ValueError` from `int(...)` (caught by the fixer
CLI), and the built-in `OverflowError` (raised by `int / int` float
division or by the `timedelta` constructor's range check). -/
inductive PyExn
  | timeParsingError
  | valueError
  | overflowError
deriving DecidableEq

/--
One scan step of `re.findall(r"(\d+)([a-zA-Z])", s)`: at a digit, the regex
greedily takes the digit run and then requires one letter; on success the
scan resumes after the letter, otherwise at the first non-digit.
Fuel-driven (structural) so the kernel can evaluate it; the scanned list
shrinks by at least one byte per step, so fuel `s.length` suffices.
-/
def findPairsAux : Nat → List Nat → List (List Nat × Nat)
  | 0, _ => []
  | _, [] => []
  | fuel + 1, b :: bs =>
    if isDigitB b then
      match bs.dropWhile isDigitB with
      | [] => []
      | c :: cs =>
        if isLetterB c then
          ((b :: bs).takeWhile isDigitB, c) :: findPairsAux fuel cs
        else findPairsAux fuel (c :: cs)
    else findPairsAux fuel bs

/-- `re.findall(r"(\d+)([a-zA-Z])", s)` as a list of (digit-run, letter). -/
def findPairs (s : List Nat) : List (List Nat × Nat) := findPairsAux s.length s

/-- Days-per-unit factor, scaled by 24 so the hour unit (1/24 day) stays
integral: `y ↦ 365·24`, `m ↦ 30·24`, `w ↦ 7·24`, `d ↦ 24`, `h ↦ 1`;
`none` models `raise TimeParsingError("Unsupported time unit")`. -/
def unitFactor24 (u : Nat) : Option Nat :=
  if u = 121 then some 8760
  else if u = 109 then some 720
  else if u = 119 then some 168
  else if u = 100 then some 24
  else if u = 104 then some 1
  else none

/-- Python's `value / 24` (`int / int` true division) raises
`OverflowError` when the correctly rounded quotient exceeds the largest
`float`; with round-to-nearest-even this happens exactly for
`value ≥ 24·(2^1024 − 2^970) = 3·(2^1027 − 2^973)`. -/
def hDivOverflows (v : Nat) : Bool := decide (3 * (2 ^ 1027 - 2 ^ 973) ≤ v)

/-- The `timedelta` constructor normalizes its arguments to
`(days, seconds, microseconds)` and raises `OverflowError` when the day
count leaves `[-999999999, 999999999]` (`timedelta.min`/`timedelta.max`).
On the exact microsecond total this says `us.fdiv 86400000000` leaves that
interval, i.e. `us < -999999999·86400000000 = -86399999913600000000` or
`10^9·86400000000 = 86400000000000000000 ≤ us`. -/
def tdOverflows (us : Int) : Bool :=
  decide (us < -86399999913600000000) || decide (86400000000000000000 ≤ us)

/-- The `timedelta` constructor's range check on an exact microsecond
total. -/
def tdCheck (us : Int) : Except PyExn Int :=
  if tdOverflows us then .error .overflowError else .ok us

/-- The accumulation loop of `parse_time_adjustment`: total in 24ths of a
day.  An unsupported unit letter raises `TimeParsingError`; an `h` pair
whose value overflows the `value / 24` float division raises
`OverflowError`; the first offending pair in scan order wins. -/
def sumPairs : List (List Nat × Nat) → Except PyExn Nat
  | [] => .ok 0
  | (ds, u) :: rest =>
    match unitFactor24 u with
    | none => .error .timeParsingError
    | some f =>
      if u = 104 ∧ hDivOverflows (fieldVal ds) = true then .error .overflowError
      else
        match sumPairs rest with
        | .error e => .error e
        | .ok t => .ok (fieldVal ds * f + t)

/--
`MetadataTimeChanger.parse_time_adjustment`, returning the resulting
`timedelta` as an exact count of microseconds.  The arbitrary-precision
ints are modelled by `Nat`; the hour unit's `value / 24` float division is
modelled exactly (its own overflow at `hDivOverflows` aside, `float`
rounding is not modelled); the `timedelta` constructor's range check runs
on the signed total.
-/
def parse_time_adjustment (s : List Nat) : Except PyExn Int :=
  match pyStrip s with
  | [] => .error .timeParsingError
  | c :: rest =>
    if !(c == 43 || c == 45) then .error .timeParsingError
    else
      let sign : Int := if c == 43 then 1 else -1
      if pyIsdigit rest then tdCheck (sign * ((fieldVal rest : Int) * 86400000000))
      else
        let pairs := findPairs (rest.map toLowerB)
        if pairs.isEmpty then .error .timeParsingError
        else
          match sumPairs pairs with
          | .error e => .error e
          | .ok t24 => tdCheck (sign * ((t24 : Int) * 3600000000))

/-! ### The standalone fixer CLI's time parser (`avi_riff_date_fixer.main`) -/

/-- Core of Python `int(str)` on the stripped text: optional sign, then a
nonempty digit run (`none` models `ValueError`). -/
def pyIntCore (t : List Nat) : Option Int :=
  if leadsAt [43] t then
    if pyIsdigit t.tail then some ((fieldVal t.tail : Int)) else none
  else if leadsAt [45] t then
    if pyIsdigit t.tail then some (-((fieldVal t.tail : Int))) else none
  else if pyIsdigit t then some ((fieldVal t : Int)) else none

/-- Python `int(str)` restricted to ASCII: strips surrounding whitespace,
then reads an optionally signed digit run (digit-grouping underscores are
not modelled). -/
def pyIntOpt (s : List Nat) : Option Int := pyIntCore (pyStrip s)

/-- The unit-suffix dispatch of `avi_riff_date_fixer.main` applied to the
sign-stripped text `t` with sign `mult`: suffix `d`/`h`/`m` selects
days/hours/minutes, anything else is read as whole days.  `int(...)`
failure raises `ValueError` (caught by the CLI's handler); the `timedelta`
constructor's range check runs on the exact integer total (and its
`OverflowError` is not caught). -/
def fixerDispatch (mult : Int) (t : List Nat) : Except PyExn Int :=
  if t.getLast? == some 100 then
    match pyIntOpt t.dropLast with
    | none => .error .valueError
    | some n => tdCheck (n * mult * 86400000000)
  else if t.getLast? == some 104 then
    match pyIntOpt t.dropLast with
    | none => .error .valueError
    | some n => tdCheck (n * mult * 3600000000)
  else if t.getLast? == some 109 then
    match pyIntOpt t.dropLast with
    | none => .error .valueError
    | some n => tdCheck (n * mult * 60000000)
  else
    match pyIntOpt t with
    | none => .error .valueError
    | some n => tdCheck (n * mult * 86400000000)

/--
The ad-hoc time parser inside `avi_riff_date_fixer.main`: optional sign
(`+` or `-`, defaulting to positive), then the unit-suffix dispatch.
Result is the `timedelta` in microseconds; `.error .valueError` models the
caught `ValueError` path, `.error .overflowError` the uncaught
`OverflowError` from the `timedelta` constructor.
-/
def fixer_parse_time (s : List Nat) : Except PyExn Int :=
  if leadsAt [43] s then fixerDispatch 1 s.tail
  else if leadsAt [45] s then fixerDispatch (-1) s.tail
  else fixerDispatch 1 s

/-! ### C7: when does `parse_time_adjustment` raise `TimeParsingError`? -/

/-- A Python `datetime` restricted to the fields the Canon format carries. -/
structure DateTime where
  year : Nat
  month : Nat
  day : Nat
  hour : Nat
  minute : Nat
  second : Nat
deriving DecidableEq

/-- Gregorian leap-year test (as in Python's `calendar`/`datetime`). -/
def isLeapYear (y : Nat) : Bool := (y % 4 == 0 && y % 100 != 0) || y % 400 == 0

/-- Length of month `m` (1–12) of year `y`. -/
def daysInMonth (y m : Nat) : Nat :=
  if m = 2 then (if isLeapYear y then 29 else 28)
  else if m = 4 ∨ m = 6 ∨ m = 9 ∨ m = 11 then 30
  else 31

/-- Days in year `y` strictly before month `m` (1–12). -/
def daysBeforeMonth (y m : Nat) : Nat :=
  [0, 0, 31, 59, 90, 120, 151, 181, 212, 243, 273, 304, 334].getD m 0 +
    (if 2 < m ∧ isLeapYear y = true then 1 else 0)

/-- Zero-based day count since 0001-01-01 of the proleptic Gregorian
calendar (Python's `date.toordinal()` minus 1). -/
def dayNumber (y m d : Nat) : Nat :=
  365 * (y - 1) + (y - 1) / 4 - (y - 1) / 100 + (y - 1) / 400 +
    daysBeforeMonth y m + (d - 1)

/-- Weekday index with Monday = 0 (`datetime.weekday()`); 0001-01-01 is a
Monday. -/
def weekdayIdx (y m d : Nat) : Nat := dayNumber y m d % 7

/-- Upper-case three-letter weekday abbreviation bytes (`%a` upper-cased). -/
def weekdayAbbrev : Nat → List Nat
  | 0 => [77, 79, 78]
  | 1 => [84, 85, 69]
  | 2 => [87, 69, 68]
  | 3 => [84, 72, 85]
  | 4 => [70, 82, 73]
  | 5 => [83, 65, 84]
  | _ => [83, 85, 78]

/-- Upper-case three-letter month abbreviation bytes (`%b` upper-cased). -/
def monthAbbrev : Nat → List Nat
  | 1 => [74, 65, 78]
  | 2 => [70, 69, 66]
  | 3 => [77, 65, 82]
  | 4 => [65, 80, 82]
  | 5 => [77, 65, 89]
  | 6 => [74, 85, 78]
  | 7 => [74, 85, 76]
  | 8 => [65, 85, 71]
  | 9 => [83, 69, 80]
  | 10 => [79, 67, 84]
  | 11 => [78, 79, 86]
  | _ => [68, 69, 67]

/-- Two-digit zero-padded decimal field. -/
def pad2 (n : Nat) : List Nat := [48 + n / 10, 48 + n % 10]

/--
`format_canon_date`: `dt.strftime("%a %b %d %H:%M:%S %Y").upper()` as
bytes.  `%Y` prints the year's decimal digits (4 digits throughout the
1000–9999 range used here).
-/
def format_canon_date (t : DateTime) : List Nat :=
  weekdayAbbrev (weekdayIdx t.year t.month t.day) ++ [32] ++
    monthAbbrev t.month ++ [32] ++ pad2 t.day ++ [32] ++ pad2 t.hour ++ [58] ++
    pad2 t.minute ++ [58] ++ pad2 t.second ++ [32] ++ natDigits t.year

/-- First three bytes, lower-cased (`strptime` matches names with
`re.IGNORECASE`). -/
def lower3 (s : List Nat) : List Nat := (s.take 3).map toLowerB

/-- Lower-case weekday abbreviations recognized by `%a`. -/
def weekdayNamesLower : List (List Nat) :=
  [[109, 111, 110], [116, 117, 101], [119, 101, 100], [116, 104, 117],
   [102, 114, 105], [115, 97, 116], [115, 117, 110]]

/-- `%a`: consume one (case-insensitive) weekday abbreviation.  The parsed
weekday is not checked against the date (`strptime` ignores it when a full
date is present). -/
def parseWeekday (s : List Nat) : Option (List Nat) :=
  if weekdayNamesLower.contains (lower3 s) then some (s.drop 3) else none

/-- Month number of a lower-cased three-letter abbreviation, 0 when the
bytes name no month. -/
def monthVal (p : List Nat) : Nat :=
  if p = [106, 97, 110] then 1
  else if p = [102, 101, 98] then 2
  else if p = [109, 97, 114] then 3
  else if p = [97, 112, 114] then 4
  else if p = [109, 97, 121] then 5
  else if p = [106, 117, 110] then 6
  else if p = [106, 117, 108] then 7
  else if p = [97, 117, 103] then 8
  else if p = [115, 101, 112] then 9
  else if p = [111, 99, 116] then 10
  else if p = [110, 111, 118] then 11
  else if p = [100, 101, 99] then 12
  else 0

/-- `%b`: consume one month abbreviation, yielding the month number. -/
def parseMonth (s : List Nat) : Option (Nat × List Nat) :=
  if monthVal (lower3 s) = 0 then none
  else some (monthVal (lower3 s), s.drop 3)

/-- A whitespace run in the format becomes `\s+`: require at least one
whitespace byte, then greedily consume the run. -/
def skipWs1 : List Nat → Option (List Nat)
  | [] => none
  | b :: bs => if isWsB b then some (bs.dropWhile isWsB) else none

/-- The leading digit run of `s`. -/
def digitsOf (s : List Nat) : List Nat := s.takeWhile isDigitB

/-- What follows the leading digit run of `s`. -/
def afterDigits (s : List Nat) : List Nat := s.dropWhile isDigitB

/--
`%d` (regex `3[0-1]|[1-2]\d|0[1-9]|[1-9]| [1-9]`): one digit 1–9 or two
digits valued 1–31; a longer digit run cannot match because the digit after
the consumed field never matches the following literal/whitespace.
-/
def parseDayF (s : List Nat) : Option (Nat × List Nat) :=
  if (digitsOf s).length = 1 ∧ 1 ≤ fieldVal (digitsOf s) then
    some (fieldVal (digitsOf s), afterDigits s)
  else if (digitsOf s).length = 2 ∧ 1 ≤ fieldVal (digitsOf s) ∧
      fieldVal (digitsOf s) ≤ 31 then
    some (fieldVal (digitsOf s), afterDigits s)
  else none

/--
`%H`/`%M`/`%S` (regexes `2[0-3]|[0-1]\d|\d`, `[0-5]\d|\d`, `6[0-1]|[0-5]\d|\d`):
one digit of any value, or two digits up to the field maximum (23/59/61);
longer digit runs never match.
-/
def parse2Field (maxv : Nat) (s : List Nat) : Option (Nat × List Nat) :=
  if (digitsOf s).length = 1 then some (fieldVal (digitsOf s), afterDigits s)
  else if (digitsOf s).length = 2 ∧ fieldVal (digitsOf s) ≤ maxv then
    some (fieldVal (digitsOf s), afterDigits s)
  else none

/-- `%Y` at the end of the format: exactly four digits and then the end of
the string (`strptime` rejects unconverted trailing data). -/
def parseYearEnd (s : List Nat) : Option Nat :=
  if (digitsOf s).length = 4 ∧ afterDigits s = [] then some (fieldVal (digitsOf s))
  else none

/-- Consume the literal `:`. -/
def expectColon : List Nat → Option (List Nat)
  | 58 :: bs => some bs
  | _ => none

/--
`datetime.strptime(clean, "%a %b %d %H:%M:%S %Y")` on the cleaned string:
match the fields in order, then the `datetime` constructor validates the
ranges (month is 1–12 by construction of `%b`; the year's four digits must
form a year ≥ 1; day must fit the month; second 60/61 pass `%S` but fail
construction).  `none` models `ValueError`, caught by `parse_canon_date`.
-/
def parseCanonClean (s : List Nat) : Option DateTime :=
  (parseWeekday s).bind fun s1 =>
  (skipWs1 s1).bind fun s2 =>
  (parseMonth s2).bind fun p1 =>
  (skipWs1 p1.2).bind fun s4 =>
  (parseDayF s4).bind fun p2 =>
  (skipWs1 p2.2).bind fun s6 =>
  (parse2Field 23 s6).bind fun p3 =>
  (expectColon p3.2).bind fun s8 =>
  (parse2Field 59 s8).bind fun p4 =>
  (expectColon p4.2).bind fun s10 =>
  (parse2Field 61 s10).bind fun p5 =>
  (skipWs1 p5.2).bind fun s12 =>
  (parseYearEnd s12).bind fun y =>
  if 1 ≤ y ∧ 1 ≤ p2.1 ∧ p2.1 ≤ daysInMonth y p1.1 ∧ p3.1 ≤ 23 ∧ p4.1 ≤ 59 ∧
      p5.1 ≤ 59 then
    some ⟨y, p1.1, p2.1, p3.1, p4.1, p5.1⟩
  else none

/-- Strip trailing NUL bytes (`str.rstrip("\x00")`). -/
def dropTrailNul (s : List Nat) : List Nat :=
  (s.reverse.dropWhile (fun b => b == 0)).reverse

/-- The cleaning step of `parse_canon_date`:
`date_str.strip().rstrip("\x00").strip()`. -/
def pyCleanDate (s : List Nat) : List Nat := pyStrip (dropTrailNul (pyStrip s))

/-- `parse_canon_date` from `avi_riff_utils.py` / `avi_riff_date_fixer.py` /
`MetadataTimeChanger._parse_canon_date`: clean, then `strptime`;
`None` on `ValueError`. -/
def parse_canon_date (s : List Nat) : Option DateTime :=
  parseCanonClean (pyCleanDate s)

/-- `bytes.decode("ascii", errors="ignore")`: drop all non-ASCII bytes. -/
def asciiDecodeIgnore (s : List Nat) : List Nat := s.filter (fun b => b < 128)

/-! ### `datetime + timedelta` (used by the fixer to compute the new date)

`datetime.__add__` converts the datetime to an ordinal-days + time
`timedelta`, adds the operand, checks `0 < days <= _MAXORDINAL` (3652059),
and converts back with `date.fromordinal`.  `OverflowError` (modelled as
`none`) is raised outside that range; the patcher's `except` catches it. -/

/-- 366 for leap years, 365 otherwise. -/
def daysInYear (y : Nat) : Nat := if isLeapYear y then 366 else 365

/-- Year search of `date.fromordinal`: starting at year `y`, strip whole
years from the day count `n`.  Fuel-driven; 10000 covers every ordinal
accepted by the range check. -/
def yearFromDaysAux : Nat → Nat → Nat → Nat × Nat
  | 0, y, n => (y, n)
  | fuel + 1, y, n =>
    if n < daysInYear y then (y, n)
    else yearFromDaysAux fuel (y + 1) (n - daysInYear y)

/-- Month search of `date.fromordinal`: split a day-of-year (0-based) into
(month, day-of-month). -/
def monthFromDoy (y doy : Nat) : Nat × Nat :=
  if doy < daysBeforeMonth y 2 then (1, doy + 1)
  else if doy < daysBeforeMonth y 3 then (2, doy - daysBeforeMonth y 2 + 1)
  else if doy < daysBeforeMonth y 4 then (3, doy - daysBeforeMonth y 3 + 1)
  else if doy < daysBeforeMonth y 5 then (4, doy - daysBeforeMonth y 4 + 1)
  else if doy < daysBeforeMonth y 6 then (5, doy - daysBeforeMonth y 5 + 1)
  else if doy < daysBeforeMonth y 7 then (6, doy - daysBeforeMonth y 6 + 1)
  else if doy < daysBeforeMonth y 8 then (7, doy - daysBeforeMonth y 7 + 1)
  else if doy < daysBeforeMonth y 9 then (8, doy - daysBeforeMonth y 8 + 1)
  else if doy < daysBeforeMonth y 10 then (9, doy - daysBeforeMonth y 9 + 1)
  else if doy < daysBeforeMonth y 11 then (10, doy - daysBeforeMonth y 10 + 1)
  else if doy < daysBeforeMonth y 12 then (11, doy - daysBeforeMonth y 11 + 1)
  else (12, doy - daysBeforeMonth y 12 + 1)

/-- `date.fromordinal (n + 1)`: year, month, day from a 0-based day count. -/
def dateFromDayNumber (n : Nat) : Nat × Nat × Nat :=
  ((yearFromDaysAux 10000 1 n).1,
   (monthFromDoy (yearFromDaysAux 10000 1 n).1 (yearFromDaysAux 10000 1 n).2).1,
   (monthFromDoy (yearFromDaysAux 10000 1 n).1 (yearFromDaysAux 10000 1 n).2).2)

/-- Rebuild a `datetime` from a total-microseconds count (ordinal days
included), enforcing `0 < days ≤ _MAXORDINAL`. -/
def dtFromTotalUs (total : Int) : Option DateTime :=
  if 0 < total.fdiv 86400000000 ∧ total.fdiv 86400000000 ≤ 3652059 then
    some ⟨(dateFromDayNumber ((total.fdiv 86400000000).toNat - 1)).1,
          (dateFromDayNumber ((total.fdiv 86400000000).toNat - 1)).2.1,
          (dateFromDayNumber ((total.fdiv 86400000000).toNat - 1)).2.2,
          (total.fmod 86400000000).toNat / 1000000 / 3600,
          (total.fmod 86400000000).toNat / 1000000 % 3600 / 60,
          (total.fmod 86400000000).toNat / 1000000 % 60⟩
  else none

/-- `datetime + timedelta(microseconds = us)` (seconds precision suffices
here: the Canon format has no sub-second field). -/
def dt_add (t : DateTime) (us : Int) : Option DateTime :=
  dtFromTotalUs (((dayNumber t.year t.month t.day + 1 : Nat) : Int) * 86400000000 +
    ((t.hour * 3600 + t.minute * 60 + t.second : Nat) : Int) * 1000000 + us)

/-! ### The in-place patchers -/

/-- Pad with NULs or truncate to exactly `size` bytes (the writer's
size-preservation step). -/
def padTrunc (size : Nat) (s : List Nat) : List Nat :=
  if s.length < size then s ++ List.replicate (size - s.length) 0
  else s.take size

/-- Python slice assignment `data[a:b] = repl` on an in-memory buffer. -/
def slice_assign (data : List Nat) (a b : Nat) (repl : List Nat) : List Nat :=
  data.take a ++ repl ++ data.drop b

/-- Injected I/O failures: creating the backup copy, loading the buffer,
or writing the buffer back may raise. -/
structure Faults where
  copyFail : Bool
  readFail : Bool
  writeFail : Bool
deriving DecidableEq

/-- No fault injected. -/
def noFaults : Faults := ⟨false, false, false⟩

/-- Observable outcome of a patch operation: the return value, the final
bytes of the target file, the backup file if it still exists, and whether
the exception handler installed after backup creation ran. -/
structure PatchOut where
  ok : Bool
  file : List Nat
  backup : Option (List Nat)
  raised : Bool
deriving DecidableEq

/--
`fix_avi_date_inplace` (avi_riff_date_fixer.py): backup, read, locate,
decode, add the delta, encode padded/truncated to the original payload
size, splice, write back.  Any exception after the backup was created is
caught: the file is restored from the backup and the backup removed.  The
no-chunk branch removes the backup; the decode-failure branch returns
`False` without removing it.
-/
def fix_avi_date_inplace (f : Faults) (orig : List Nat) (us : Int) : PatchOut :=
  if f.copyFail then ⟨false, orig, none, false⟩
  else if f.readFail then ⟨false, orig, none, true⟩
  else
    match find_idit_chunk orig with
    | none => ⟨false, orig, none, false⟩
    | some (pos, date_data) =>
      match parse_canon_date (asciiDecodeIgnore date_data) with
      | none => ⟨false, orig, some orig, false⟩
      | some cur =>
        match dt_add cur us with
        | none => ⟨false, orig, none, true⟩
        | some nd =>
          if f.writeFail then ⟨false, orig, none, true⟩
          else ⟨true,
            slice_assign orig (pos + 8) (pos + 8 + date_data.length)
              (padTrunc date_data.length (format_canon_date nd)),
            none, false⟩

/--
`MetadataTimeChanger.write_avi_metadata_safe_inplace_modify`: as above but
the caller supplies the new timestamp (the current payload is only checked
to decode), `_find_idit_chunk` may raise `struct.error` (caught by the
inner handler, which restores from backup), and the decode-failure branch
does remove the backup.
-/
def write_avi_metadata_safe_inplace_modify (f : Faults) (dry : Bool)
    (orig : List Nat) (ts : DateTime) : PatchOut :=
  if dry then ⟨true, orig, none, false⟩
  else if f.copyFail then ⟨false, orig, none, false⟩
  else if f.readFail then ⟨false, orig, none, true⟩
  else
    match changer_find_idit_chunk orig with
    | .error _ => ⟨false, orig, none, true⟩
    | .ok none => ⟨false, orig, none, false⟩
    | .ok (some (pos, date_data)) =>
      match parse_canon_date (asciiDecodeIgnore date_data) with
      | none => ⟨false, orig, none, false⟩
      | some _ =>
        if f.writeFail then ⟨false, orig, none, true⟩
        else ⟨true,
          slice_assign orig (pos + 8) (pos + 8 + date_data.length)
            (padTrunc date_data.length (format_canon_date ts)),
          none, false⟩

/-- The field ranges guaranteed by a successfully constructed Python
`datetime` (second precision). -/
def ValidPyDT (t : DateTime) : Prop :=
  1 ≤ t.year ∧ t.year ≤ 9999 ∧ 1 ≤ t.month ∧ t.month ≤ 12 ∧ 1 ≤ t.day ∧
    t.day ≤ daysInMonth t.year t.month ∧ t.hour ≤ 23 ∧ t.minute ≤ 59 ∧
    t.second ≤ 59

instance (t : DateTime) : Decidable (ValidPyDT t) := by
  unfold ValidPyDT
  infer_instance

/-- Sum of `daysInYear` over `k` consecutive years starting at `y0`. -/
def daysSpan (y0 : Nat) : Nat → Nat
  | 0 => 0
  | k + 1 => daysInYear y0 + daysSpan (y0 + 1) k

/-- The validity range of C5: a well-formed `datetime` with seconds
precision and year 1000–9999. -/
def ValidCanonDT (t : DateTime) : Prop :=
  1 ≤ t.month ∧ t.month ≤ 12 ∧ 1 ≤ t.day ∧ t.day ≤ daysInMonth t.year t.month ∧
    t.hour ≤ 23 ∧ t.minute ≤ 59 ∧ t.second ≤ 59 ∧ 1000 ≤ t.year ∧ t.year ≤ 9999

instance (t : DateTime) : Decidable (ValidCanonDT t) := by
  unfold ValidCanonDT
  infer_instance

/-- A successful `findSub` match lies inside the buffer:
the whole pattern fits at the reported index. -/
theorem findSub_le (pat : List Nat) :
    ∀ (s : List Nat) (i : Nat), findSub pat s = some i →
      i + pat.length ≤ s.length := by
  intro s
  induction s with
  | nil => intro i h; simp [findSub] at h
  | cons d ds ih =>
    intro i h
    simp only [findSub] at h
    by_cases hl : leadsAt pat (d :: ds)
    · simp [hl] at h
      subst h
      have : ∀ p q, leadsAt p q = true → p.length ≤ q.length := by
        intro p
        induction p with
        | nil => intro q _; simp
        | cons a as ihp =>
          intro q hq
          cases q with
          | nil => simp [leadsAt] at hq
          | cons b bs =>
            simp only [leadsAt, Bool.and_eq_true] at hq
            have := ihp bs hq.2
            simp [List.length_cons]
            omega
      have := this pat (d :: ds) hl
      simpa using this
    · simp [hl] at h
      obtain ⟨j, hj, rfl⟩ := h
      have := ih j hj
      simp [List.length_cons]
      omega

/--
C4 (counterexample): the claim says both locators return `(None, None)`
without raising when the tag occurs but only 2 bytes remain for the size
field.  On `b"IDIT\x00\x00"` the changer's `_find_idit_chunk` instead
raises `struct.error` (the 2-byte slice is fed to `struct.unpack("<L", ·)`
with no length check).
-/
theorem changer_locator_raises_on_short_size_field :
    changer_find_idit_chunk [73, 68, 73, 84, 0, 0] = .error () := rfl

/--
C4 (amended): when `b"IDIT"` occurs at `pos` but fewer than 4 bytes remain
after the tag for the size field, `find_idit_chunk` returns `(None, None)`
without raising; `_find_idit_chunk` does so only when 0 bytes remain, and
raises `struct.error` when 1–3 bytes remain.
-/
theorem locator_short_size_field (data : List Nat) (pos : Nat)
    (hfind : findSub iditTag data = some pos)
    (hshort : data.length < pos + 8) :
    find_idit_chunk data = none ∧
      (data.length = pos + 4 → changer_find_idit_chunk data = .ok none) ∧
      (pos + 4 < data.length → changer_find_idit_chunk data = .error ()) := by
  have hle : pos + 4 ≤ data.length := by
    have := findSub_le iditTag data pos hfind
    simp [iditTag] at this
    omega
  have hlen : ((data.drop (pos + 4)).take 4).length = data.length - (pos + 4) := by
    simp [List.length_take, List.length_drop]
    omega
  refine ⟨?_, ?_, ?_⟩
  · unfold find_idit_chunk
    rw [hfind]
    by_cases hc : data.length ≤ pos + 4
    · simp [hc]
    · simp [hc]
      intro h
      omega
  · intro heq
    unfold changer_find_idit_chunk
    rw [hfind]
    simp [heq]
  · intro hlt
    unfold changer_find_idit_chunk
    rw [hfind]
    have hc : ¬ data.length ≤ pos + 4 := by omega
    simp [hc]
    intro h
    exact absurd h (by omega)

/-- C4 witness: the amended theorem applied to the concrete buffer
`b"IDIT\x01\x02"` (tag at 0, two bytes remaining). -/
theorem locator_short_size_field_witness :
    find_idit_chunk [73, 68, 73, 84, 1, 2] = none ∧
      changer_find_idit_chunk [73, 68, 73, 84, 1, 2] = .error () := by
  have h := locator_short_size_field [73, 68, 73, 84, 1, 2] 0 (by rfl) (by decide)
  exact ⟨h.1, h.2.2 (by decide)⟩

/-! ### Helper lemmas about bytes, whitespace stripping and digit strings -/

theorem length_dropWhileLe (p : Nat → Bool) (l : List Nat) :
    (l.dropWhile p).length ≤ l.length := by
  induction l with
  | nil => simp [List.dropWhile]
  | cons a l ih =>
    rw [List.dropWhile_cons]
    split
    · exact le_trans ih (by simp)
    · simp

theorem dropWhile_eq_nil_of_all {p : Nat → Bool} {l : List Nat}
    (h : l.all p = true) : l.dropWhile p = [] := by
  induction l with
  | nil => rfl
  | cons a l ih =>
    simp only [List.all_cons, Bool.and_eq_true] at h
    rw [List.dropWhile_cons, if_pos h.1]
    exact ih h.2

theorem dropWhile_eq_self_of_forall {p : Nat → Bool} {l : List Nat}
    (h : ∀ b ∈ l, p b = false) : l.dropWhile p = l := by
  cases l with
  | nil => rfl
  | cons a l => rw [List.dropWhile_cons, if_neg (by simp [h a (by simp)])]

theorem dropWhile_append_run {p : Nat → Bool} {l : List Nat} {c : Nat}
    (h : l.all p = true) (hc : p c = false) (r : List Nat) :
    (l ++ c :: r).dropWhile p = c :: r := by
  induction l with
  | nil => simp [List.dropWhile_cons, hc]
  | cons a l ih =>
    simp only [List.all_cons, Bool.and_eq_true] at h
    rw [List.cons_append, List.dropWhile_cons, if_pos h.1]
    exact ih h.2

theorem takeWhile_append_run {p : Nat → Bool} {l : List Nat} {c : Nat}
    (h : l.all p = true) (hc : p c = false) (r : List Nat) :
    (l ++ c :: r).takeWhile p = l := by
  induction l with
  | nil => simp [List.takeWhile_cons, hc]
  | cons a l ih =>
    simp only [List.all_cons, Bool.and_eq_true] at h
    rw [List.cons_append, List.takeWhile_cons, if_pos h.1, ih h.2]

theorem pyStrip_eq_self {s : List Nat} (h : ∀ b ∈ s, isWsB b = false) :
    pyStrip s = s := by
  unfold pyStrip dropLeadWs dropTrailWs
  rw [dropWhile_eq_self_of_forall h, dropWhile_eq_self_of_forall (fun b hb => h b (by
    simpa using hb)), List.reverse_reverse]

theorem isWsB_eq_false_of_digit {b : Nat} (h : isDigitB b = true) :
    isWsB b = false := by
  simp only [isDigitB, Bool.and_eq_true, decide_eq_true_eq] at h
  simp only [isWsB]
  simp
  omega

theorem isDigitB_eq_false_of_letter {c : Nat} (h : isLetterB c = true) :
    isDigitB c = false := by
  simp only [isLetterB, Bool.or_eq_true, Bool.and_eq_true, decide_eq_true_eq] at h
  simp only [isDigitB]
  simp
  omega

theorem toLowerB_of_digit {b : Nat} (h : isDigitB b = true) : toLowerB b = b := by
  simp only [isDigitB, Bool.and_eq_true, decide_eq_true_eq] at h
  unfold toLowerB
  rw [if_neg]
  simp
  omega

theorem map_toLowerB_of_digits {s : List Nat} (h : s.all isDigitB = true) :
    s.map toLowerB = s := by
  induction s with
  | nil => rfl
  | cons a l ih =>
    simp only [List.all_cons, Bool.and_eq_true] at h
    simp [toLowerB_of_digit h.1, ih h.2]

theorem natDigitsAux_eq : ∀ n f : Nat, n < f → natDigitsAux f n = natDigits n := by
  intro n
  induction n using Nat.strong_induction_on with
  | _ n ih =>
    intro f hf
    cases f with
    | zero => omega
    | succ f' =>
      by_cases h10 : n < 10
      · simp [natDigitsAux, natDigits, h10]
      · have h1 : n / 10 < n := Nat.div_lt_self (by omega) (by omega)
        have h2 : n / 10 < f' := by omega
        show (if n < 10 then [48 + n] else natDigitsAux f' (n / 10) ++ [48 + n % 10]) =
          natDigits n
        rw [if_neg h10]
        show _ = natDigitsAux (n + 1) n
        rw [show natDigitsAux (n + 1) n =
          (if n < 10 then [48 + n] else natDigitsAux n (n / 10) ++ [48 + n % 10]) from rfl]
        rw [if_neg h10, ih (n / 10) h1 f' h2, ih (n / 10) h1 n h1]

theorem natDigits_all_digits : ∀ n : Nat, (natDigits n).all isDigitB = true := by
  intro n
  induction n using Nat.strong_induction_on with
  | _ n ih =>
    show (natDigitsAux (n + 1) n).all isDigitB = true
    rw [show natDigitsAux (n + 1) n =
      (if n < 10 then [48 + n] else natDigitsAux n (n / 10) ++ [48 + n % 10]) from rfl]
    by_cases h10 : n < 10
    · rw [if_pos h10]
      simp [isDigitB]
      omega
    · have h1 : n / 10 < n := Nat.div_lt_self (by omega) (by omega)
      rw [if_neg h10, natDigitsAux_eq (n / 10) n h1]
      rw [List.all_append]
      simp only [Bool.and_eq_true]
      refine ⟨ih (n / 10) h1, ?_⟩
      simp [isDigitB]
      omega

theorem natDigits_ne_nil (n : Nat) : natDigits n ≠ [] := by
  show natDigitsAux (n + 1) n ≠ []
  rw [show natDigitsAux (n + 1) n =
    (if n < 10 then [48 + n] else natDigitsAux n (n / 10) ++ [48 + n % 10]) from rfl]
  by_cases h10 : n < 10
  · simp [h10]
  · simp [h10]

theorem fieldVal_concat (l : List Nat) (b : Nat) :
    fieldVal (l ++ [b]) = 10 * fieldVal l + (b - 48) := by
  simp [fieldVal, List.foldl_append]

theorem fieldVal_natDigits : ∀ n : Nat, fieldVal (natDigits n) = n := by
  intro n
  induction n using Nat.strong_induction_on with
  | _ n ih =>
    show fieldVal (natDigitsAux (n + 1) n) = n
    rw [show natDigitsAux (n + 1) n =
      (if n < 10 then [48 + n] else natDigitsAux n (n / 10) ++ [48 + n % 10]) from rfl]
    by_cases h10 : n < 10
    · rw [if_pos h10]
      simp [fieldVal]
    · have h1 : n / 10 < n := Nat.div_lt_self (by omega) (by omega)
      rw [if_neg h10, natDigitsAux_eq (n / 10) n h1, fieldVal_concat, ih (n / 10) h1]
      omega

/-! ### Lemmas about the pair scanner and the unit sum -/

theorem findPairsAux_congr :
    ∀ n : Nat, ∀ (s : List Nat) (f g : Nat), s.length ≤ n → s.length ≤ f →
      s.length ≤ g → findPairsAux f s = findPairsAux g s := by
  intro n
  induction n with
  | zero =>
    intro s f g h1 _ _
    have hs : s = [] := by
      cases s with
      | nil => rfl
      | cons a l => simp at h1
    subst hs
    cases f <;> cases g <;> rfl
  | succ n ih =>
    intro s f g hs hf hg
    cases s with
    | nil => cases f <;> cases g <;> rfl
    | cons b bs =>
      simp only [List.length_cons] at hs hf hg
      cases f with
      | zero => omega
      | succ f' =>
        cases g with
        | zero => omega
        | succ g' =>
          show (if isDigitB b then
              match bs.dropWhile isDigitB with
              | [] => []
              | c :: cs =>
                if isLetterB c then
                  ((b :: bs).takeWhile isDigitB, c) :: findPairsAux f' cs
                else findPairsAux f' (c :: cs)
            else findPairsAux f' bs) =
            (if isDigitB b then
              match bs.dropWhile isDigitB with
              | [] => []
              | c :: cs =>
                if isLetterB c then
                  ((b :: bs).takeWhile isDigitB, c) :: findPairsAux g' cs
                else findPairsAux g' (c :: cs)
            else findPairsAux g' bs)
          by_cases hd : isDigitB b
          · rw [if_pos hd, if_pos hd]
            cases hdm : bs.dropWhile isDigitB with
            | nil => rfl
            | cons c cs =>
              have hlen : cs.length + 1 ≤ bs.length := by
                have := length_dropWhileLe isDigitB bs
                rw [hdm] at this
                simpa using this
              show (if isLetterB c then
                  ((b :: bs).takeWhile isDigitB, c) :: findPairsAux f' cs
                else findPairsAux f' (c :: cs)) =
                (if isLetterB c then
                  ((b :: bs).takeWhile isDigitB, c) :: findPairsAux g' cs
                else findPairsAux g' (c :: cs))
              by_cases hl : isLetterB c
              · rw [if_pos hl, if_pos hl,
                  ih cs f' g' (by omega) (by omega) (by omega)]
              · rw [if_neg hl, if_neg hl]
                exact ih (c :: cs) f' g' (by simp; omega) (by simp; omega)
                  (by simp; omega)
          · rw [if_neg hd, if_neg hd]
            exact ih bs f' g' (by omega) (by omega) (by omega)

theorem findPairsAux_eq_findPairs {s : List Nat} {f : Nat} (h : s.length ≤ f) :
    findPairsAux f s = findPairs s :=
  findPairsAux_congr s.length s f s.length le_rfl h le_rfl

theorem findPairs_run {ds : List Nat} {c : Nat} (rest : List Nat)
    (hall : ds.all isDigitB = true) (hne : ds ≠ []) (hc : isLetterB c = true) :
    findPairs (ds ++ c :: rest) = (ds, c) :: findPairs rest := by
  cases ds with
  | nil => exact absurd rfl hne
  | cons d ds' =>
    simp only [List.all_cons, Bool.and_eq_true] at hall
    have hcd : isDigitB c = false := isDigitB_eq_false_of_letter hc
    show findPairsAux ((d :: ds' ++ c :: rest).length) (d :: (ds' ++ c :: rest)) = _
    have hlen : (d :: ds' ++ c :: rest).length = (ds' ++ c :: rest).length + 1 := by
      simp
    rw [hlen]
    show (if isDigitB d then
        match (ds' ++ c :: rest).dropWhile isDigitB with
        | [] => []
        | c' :: cs =>
          if isLetterB c' then
            ((d :: (ds' ++ c :: rest)).takeWhile isDigitB, c') ::
              findPairsAux (ds' ++ c :: rest).length cs
          else findPairsAux (ds' ++ c :: rest).length (c' :: cs)
      else findPairsAux (ds' ++ c :: rest).length (ds' ++ c :: rest)) = _
    rw [if_pos hall.1, dropWhile_append_run hall.2 hcd rest]
    show (if isLetterB c then
        ((d :: (ds' ++ c :: rest)).takeWhile isDigitB, c) ::
          findPairsAux (ds' ++ c :: rest).length rest
      else findPairsAux (ds' ++ c :: rest).length (c :: rest)) = _
    rw [if_pos hc]
    rw [show d :: (ds' ++ c :: rest) = (d :: ds') ++ c :: rest from rfl,
      takeWhile_append_run (by simp [hall.1, hall.2]) hcd rest]
    rw [findPairsAux_eq_findPairs (by simp; omega)]

/--
C6: `parse_time_adjustment` applies the overall sign to the summed total:
`"-2w 1d"` is exactly −15 days and `"+1y 2m 3d"` is exactly
365 + 2·30 + 3 = 428 days (microsecond counts; one day is 86400000000 µs).
-/
theorem parse_time_adjustment_sign_on_total :
    parse_time_adjustment [45, 50, 119, 32, 49, 100] =
        .ok (-(15 * 86400000000 : Int)) ∧
      parse_time_adjustment [43, 49, 121, 32, 50, 109, 32, 51, 100] =
        .ok (428 * 86400000000 : Int) := by
  constructor <;> rfl

theorem pyIntOpt_natDigits (n : Nat) : pyIntOpt (natDigits n) = some ((n : Int)) := by
  have hall := natDigits_all_digits n
  have hfv := fieldVal_natDigits n
  obtain ⟨d, ds, hd⟩ : ∃ d ds, natDigits n = d :: ds := by
    cases h : natDigits n with
    | nil => exact absurd h (natDigits_ne_nil n)
    | cons a l => exact ⟨a, l, rfl⟩
  rw [hd] at hall hfv
  have hdd : 48 ≤ d ∧ d ≤ 57 := by
    simp only [List.all_cons, Bool.and_eq_true] at hall
    have := hall.1
    simp only [isDigitB, Bool.and_eq_true, decide_eq_true_eq] at this
    exact this
  have hstrip : pyStrip (d :: ds) = d :: ds := by
    apply pyStrip_eq_self
    intro b hb
    apply isWsB_eq_false_of_digit
    rw [List.all_eq_true] at hall
    exact hall b hb
  unfold pyIntOpt
  rw [hd, hstrip]
  unfold pyIntCore
  have h43 : leadsAt [43] (d :: ds) = false := by
    simp [leadsAt]
    omega
  have h45 : leadsAt [45] (d :: ds) = false := by
    simp [leadsAt]
    omega
  rw [h43, h45]
  simp only [Bool.false_eq_true, if_false]
  rw [if_pos (by simp [pyIsdigit, hall]), hfv]

theorem fixerDispatch_minutes (n : Nat) (m : Int) :
    fixerDispatch m (natDigits n ++ [109]) = tdCheck ((n : Int) * m * 60000000) := by
  unfold fixerDispatch
  rw [List.getLast?_concat, List.dropLast_concat]
  simp [pyIntOpt_natDigits n]

theorem fixer_parse_time_minutes (n : Nat) (hb : n ≤ 33333333) :
    fixer_parse_time (43 :: (natDigits n ++ [109])) = .ok ((n : Int) * 60000000) ∧
      fixer_parse_time (45 :: (natDigits n ++ [109])) =
        .ok (-((n : Int) * 60000000)) := by
  have h1 : tdOverflows ((n : Int) * 60000000) = false := by
    unfold tdOverflows
    simp only [Bool.or_eq_false_iff, decide_eq_false_iff_not, not_lt, not_le]
    constructor <;> omega
  have h2 : tdOverflows (-((n : Int) * 60000000)) = false := by
    unfold tdOverflows
    simp only [Bool.or_eq_false_iff, decide_eq_false_iff_not, not_lt, not_le]
    constructor <;> omega
  constructor
  · show fixerDispatch 1 ((43 :: (natDigits n ++ [109])).tail) = _
    rw [List.tail_cons, fixerDispatch_minutes n 1,
      show (n : Int) * 1 * 60000000 = (n : Int) * 60000000 by ring]
    simp [tdCheck, h1]
  · show fixerDispatch (-1) ((45 :: (natDigits n ++ [109])).tail) = _
    rw [List.tail_cons, fixerDispatch_minutes n (-1),
      show (n : Int) * -1 * 60000000 = -((n : Int) * 60000000) by ring]
    simp [tdCheck, h2]

theorem changer_parse_months (n : Nat) :
    (n ≤ 33333333 →
      parse_time_adjustment (43 :: (natDigits n ++ [109])) =
          .ok ((n : Int) * 2592000000000) ∧
        parse_time_adjustment (45 :: (natDigits n ++ [109])) =
          .ok (-((n : Int) * 2592000000000))) ∧
      (33333333 < n →
        parse_time_adjustment (43 :: (natDigits n ++ [109])) =
            .error .overflowError ∧
          parse_time_adjustment (45 :: (natDigits n ++ [109])) =
            .error .overflowError) := by
  have hall := natDigits_all_digits n
  have hne := natDigits_ne_nil n
  have hstrip : ∀ c, isWsB c = false →
      pyStrip (c :: (natDigits n ++ [109])) = c :: (natDigits n ++ [109]) := by
    intro c hc
    apply pyStrip_eq_self
    intro b hb
    simp only [List.mem_cons, List.mem_append, List.mem_singleton] at hb
    rcases hb with h | h | h
    · rw [h]; exact hc
    · apply isWsB_eq_false_of_digit
      rw [List.all_eq_true] at hall
      exact hall b h
    · rcases h with h | h
      · rw [h]; rfl
      · simp at h
  have hmap : (natDigits n ++ [109]).map toLowerB = natDigits n ++ [109] := by
    rw [List.map_append, map_toLowerB_of_digits hall]
    rfl
  have hdig : pyIsdigit (natDigits n ++ [109]) = false := by
    unfold pyIsdigit
    rw [List.all_append]
    simp [isDigitB]
  have hfp : findPairs (natDigits n ++ [109]) = [(natDigits n, 109)] := by
    have := findPairs_run ([] : List Nat) hall hne (by rfl : isLetterB 109 = true)
    simpa using this
  have hpos : parse_time_adjustment (43 :: (natDigits n ++ [109])) =
      tdCheck ((n : Int) * 2592000000000) := by
    unfold parse_time_adjustment
    rw [hstrip _ (by rfl)]
    simp only [List.tail_cons, hmap, hdig, hfp]
    simp [sumPairs, unitFactor24, fieldVal_natDigits n]
    exact congrArg tdCheck (by push_cast; ring)
  have hneg : parse_time_adjustment (45 :: (natDigits n ++ [109])) =
      tdCheck (-((n : Int) * 2592000000000)) := by
    unfold parse_time_adjustment
    rw [hstrip _ (by rfl)]
    simp only [List.tail_cons, hmap, hdig, hfp]
    simp [sumPairs, unitFactor24, fieldVal_natDigits n]
    exact congrArg tdCheck (by push_cast; ring)
  constructor
  · intro hb
    have h1 : tdOverflows ((n : Int) * 2592000000000) = false := by
      unfold tdOverflows
      simp only [Bool.or_eq_false_iff, decide_eq_false_iff_not, not_lt, not_le]
      constructor <;> omega
    have h2 : tdOverflows (-((n : Int) * 2592000000000)) = false := by
      unfold tdOverflows
      simp only [Bool.or_eq_false_iff, decide_eq_false_iff_not, not_lt, not_le]
      constructor <;> omega
    exact ⟨by rw [hpos]; simp [tdCheck, h1], by rw [hneg]; simp [tdCheck, h2]⟩
  · intro hb
    have h1 : tdOverflows ((n : Int) * 2592000000000) = true := by
      unfold tdOverflows
      simp only [Bool.or_eq_true, decide_eq_true_eq]
      right
      omega
    have h2 : tdOverflows (-((n : Int) * 2592000000000)) = true := by
      unfold tdOverflows
      simp only [Bool.or_eq_true, decide_eq_true_eq]
      left
      omega
    exact ⟨by rw [hpos]; simp [tdCheck, h1], by rw [hneg]; simp [tdCheck, h2]⟩

/-- C10 counterexample (to the original universal claim): at n = 33333334
the CLI still reads ±n minutes, but `parse_time_adjustment` raises
`OverflowError` (30·n = 1000000020 days exceed the `timedelta` range)
instead of returning a ±n·30-day duration. -/
theorem changer_month_unit_overflow :
    fixer_parse_time [43, 51, 51, 51, 51, 51, 51, 51, 52, 109] =
        .ok (33333334 * 60000000 : Int) ∧
      parse_time_adjustment [43, 51, 51, 51, 51, 51, 51, 51, 52, 109] =
        .error .overflowError :=
  ⟨by rfl, by rfl⟩

/--
C10 (amended): on `<sign><n>m` the fixer CLI reads minutes while
`parse_time_adjustment` reads months of 30 days: for every positive
`n ≤ 33333333` (30·n within the `timedelta` range) the CLI returns
±n·60000000 µs, the changer returns ±n·2592000000000 µs, and the two
durations differ; for every larger `n` the changer instead raises
`OverflowError` from the `timedelta` constructor.
-/
theorem fixer_cli_vs_changer_month_unit (n : Nat) (hn : 0 < n) :
    (n ≤ 33333333 →
      fixer_parse_time (43 :: (natDigits n ++ [109])) =
          .ok ((n : Int) * 60000000) ∧
        fixer_parse_time (45 :: (natDigits n ++ [109])) =
          .ok (-((n : Int) * 60000000)) ∧
        parse_time_adjustment (43 :: (natDigits n ++ [109])) =
          .ok ((n : Int) * 2592000000000) ∧
        parse_time_adjustment (45 :: (natDigits n ++ [109])) =
          .ok (-((n : Int) * 2592000000000)) ∧
        (n : Int) * 60000000 ≠ (n : Int) * 2592000000000) ∧
      (33333333 < n →
        parse_time_adjustment (43 :: (natDigits n ++ [109])) =
            .error .overflowError ∧
          parse_time_adjustment (45 :: (natDigits n ++ [109])) =
            .error .overflowError) := by
  refine ⟨fun hb => ⟨(fixer_parse_time_minutes n hb).1,
    (fixer_parse_time_minutes n hb).2, ((changer_parse_months n).1 hb).1,
    ((changer_parse_months n).1 hb).2, ?_⟩, (changer_parse_months n).2⟩
  have hpos : (0 : Int) < (n : Int) := by exact_mod_cast hn
  have : (n : Int) * 60000000 < (n : Int) * 2592000000000 :=
    mul_lt_mul_of_pos_left (by norm_num) hpos
  exact ne_of_lt this

/-! ### Cleaning lemmas and C9 -/

theorem takeWhile_eq_self_of_all {p : Nat → Bool} {l : List Nat}
    (h : l.all p = true) : l.takeWhile p = l := by
  induction l with
  | nil => rfl
  | cons a l ih =>
    simp only [List.all_cons, Bool.and_eq_true] at h
    rw [List.takeWhile_cons, if_pos h.1, ih h.2]

theorem dropLeadWs_eq_self {s : List Nat} {x : Nat} (h : s.head? = some x)
    (hx : isWsB x = false) : dropLeadWs s = s := by
  cases s with
  | nil => simp at h
  | cons a l =>
    have ha : a = x := by simpa using h
    unfold dropLeadWs
    rw [List.dropWhile_cons, if_neg (by simp [ha, hx])]

theorem dropTrailWs_eq_self {s : List Nat} {z : Nat} (h : s.getLast? = some z)
    (hz : isWsB z = false) : dropTrailWs s = s := by
  unfold dropTrailWs
  cases hr : s.reverse with
  | nil =>
    have hs : s = [] := by simpa using congrArg List.reverse hr
    rw [hs] at h
    simp at h
  | cons b r =>
    have hb : b = z := by
      have hh := List.head?_reverse s
      rw [hr, h] at hh
      simpa using hh
    rw [List.dropWhile_cons, if_neg (by simp [hb, hz]), ← hr, List.reverse_reverse]

theorem dropTrailNul_eq_self {s : List Nat} {z : Nat} (h : s.getLast? = some z)
    (hz : z ≠ 0) : dropTrailNul s = s := by
  unfold dropTrailNul
  cases hr : s.reverse with
  | nil =>
    have hs : s = [] := by simpa using congrArg List.reverse hr
    rw [hs] at h
    simp at h
  | cons b r =>
    have hb : b = z := by
      have hh := List.head?_reverse s
      rw [hr, h] at hh
      simpa using hh
    rw [List.dropWhile_cons, if_neg (by simp [hb, hz]), ← hr, List.reverse_reverse]

/-- The cleaning step is the identity on a string whose first byte is not
whitespace and whose last byte is neither whitespace nor NUL. -/
theorem pyCleanDate_eq_self {s : List Nat} {x z : Nat} (hh : s.head? = some x)
    (hx : isWsB x = false) (hl : s.getLast? = some z) (hzw : isWsB z = false)
    (hz0 : z ≠ 0) : pyCleanDate s = s := by
  have h1 : dropLeadWs s = s := dropLeadWs_eq_self hh hx
  have h2 : dropTrailWs s = s := dropTrailWs_eq_self hl hzw
  have h3 : dropTrailNul s = s := dropTrailNul_eq_self hl hz0
  unfold pyCleanDate pyStrip
  rw [h1, h2, h3, h1, h2]

/--
C9 (counterexample): the claim says a cleaned payload whose hour field is
not exactly 2 digits wide is rejected, but `strptime`'s `%H` pattern
(`2[0-3]|[0-1]\d|\d`) accepts a single digit: `"MON AUG 28 4:14:28 2006"`
parses to 2006-08-28 04:14:28 instead of returning `None`.
-/
theorem parse_canon_date_accepts_one_digit_hour :
    parse_canon_date [77, 79, 78, 32, 65, 85, 71, 32, 50, 56, 32, 52, 58, 49,
      52, 58, 50, 56, 32, 50, 48, 48, 54] = some ⟨2006, 8, 28, 4, 14, 28⟩ := by
  decide

theorem all_takeWhileD (p : Nat → Bool) : ∀ s : List Nat,
    (s.takeWhile p).all p = true := by
  intro s
  induction s with
  | nil => rfl
  | cons b bs ih =>
    rw [List.takeWhile_cons]
    split_ifs with hb
    · simp [hb, ih]
    · rfl

theorem monthVal_length {p : List Nat} (h : monthVal p ≠ 0) :
    p.length = 3 := by
  unfold monthVal at h
  by_cases c1 : p = [106, 97, 110]
  · rw [c1]
    rfl
  · rw [if_neg c1] at h
    by_cases c2 : p = [102, 101, 98]
    · rw [c2]
      rfl
    · rw [if_neg c2] at h
      by_cases c3 : p = [109, 97, 114]
      · rw [c3]
        rfl
      · rw [if_neg c3] at h
        by_cases c4 : p = [97, 112, 114]
        · rw [c4]
          rfl
        · rw [if_neg c4] at h
          by_cases c5 : p = [109, 97, 121]
          · rw [c5]
            rfl
          · rw [if_neg c5] at h
            by_cases c6 : p = [106, 117, 110]
            · rw [c6]
              rfl
            · rw [if_neg c6] at h
              by_cases c7 : p = [106, 117, 108]
              · rw [c7]
                rfl
              · rw [if_neg c7] at h
                by_cases c8 : p = [97, 117, 103]
                · rw [c8]
                  rfl
                · rw [if_neg c8] at h
                  by_cases c9 : p = [115, 101, 112]
                  · rw [c9]
                    rfl
                  · rw [if_neg c9] at h
                    by_cases c10 : p = [111, 99, 116]
                    · rw [c10]
                      rfl
                    · rw [if_neg c10] at h
                      by_cases c11 : p = [110, 111, 118]
                      · rw [c11]
                        rfl
                      · rw [if_neg c11] at h
                        by_cases c12 : p = [100, 101, 99]
                        · rw [c12]
                          rfl
                        · rw [if_neg c12] at h
                          exact absurd rfl h

theorem parseWeekday_decomp {s r : List Nat} (h : parseWeekday s = some r) :
    s = s.take 3 ++ r ∧ (s.take 3).length = 3 := by
  unfold parseWeekday at h
  split_ifs at h with hc
  injection h with h'
  subst h'
  refine ⟨(List.take_append_drop 3 s).symm, ?_⟩
  have hmem : lower3 s ∈ weekdayNamesLower := by simpa using hc
  have hlen3 : (lower3 s).length = 3 := by
    simp only [weekdayNamesLower, List.mem_cons, List.not_mem_nil,
      or_false] at hmem
    rcases hmem with h | h | h | h | h | h | h <;> rw [h] <;> rfl
  simpa [lower3] using hlen3

theorem parseMonth_decomp {s : List Nat} {p : Nat × List Nat}
    (h : parseMonth s = some p) :
    s = s.take 3 ++ p.2 ∧ (s.take 3).length = 3 := by
  unfold parseMonth at h
  by_cases hz : monthVal (lower3 s) = 0
  · rw [if_pos hz] at h
    exact absurd h (by simp)
  · rw [if_neg hz] at h
    injection h with h'
    subst h'
    refine ⟨(List.take_append_drop 3 s).symm, ?_⟩
    have := monthVal_length hz
    simpa [lower3] using this

theorem skipWs1_decomp {s r : List Nat} (h : skipWs1 s = some r) :
    ∃ w, s = w ++ r ∧ w ≠ [] ∧ w.all isWsB = true := by
  cases s with
  | nil => exact absurd h (by simp [skipWs1])
  | cons b bs =>
    unfold skipWs1 at h
    dsimp only at h
    split_ifs at h with hb
    injection h with h'
    refine ⟨b :: bs.takeWhile isWsB, ?_, by simp, ?_⟩
    · rw [← h', List.cons_append, List.takeWhile_append_dropWhile]
    · simp [hb, all_takeWhileD isWsB bs]

theorem parseDayF_decomp {s : List Nat} {p : Nat × List Nat}
    (h : parseDayF s = some p) :
    s = digitsOf s ++ p.2 ∧ (digitsOf s).all isDigitB = true ∧
      1 ≤ (digitsOf s).length ∧ (digitsOf s).length ≤ 2 := by
  have hall := all_takeWhileD isDigitB s
  unfold parseDayF at h
  split_ifs at h with h1 h2
  · injection h with h'
    subst h'
    exact ⟨(List.takeWhile_append_dropWhile isDigitB s).symm, hall,
      by omega, by omega⟩
  · injection h with h'
    subst h'
    obtain ⟨h2a, -, -⟩ := h2
    exact ⟨(List.takeWhile_append_dropWhile isDigitB s).symm, hall,
      by omega, by omega⟩

theorem parse2Field_decomp {maxv : Nat} {s : List Nat} {p : Nat × List Nat}
    (h : parse2Field maxv s = some p) :
    s = digitsOf s ++ p.2 ∧ (digitsOf s).all isDigitB = true ∧
      1 ≤ (digitsOf s).length ∧ (digitsOf s).length ≤ 2 := by
  have hall := all_takeWhileD isDigitB s
  unfold parse2Field at h
  split_ifs at h with h1 h2
  · injection h with h'
    subst h'
    exact ⟨(List.takeWhile_append_dropWhile isDigitB s).symm, hall,
      by omega, by omega⟩
  · injection h with h'
    subst h'
    obtain ⟨h2a, -⟩ := h2
    exact ⟨(List.takeWhile_append_dropWhile isDigitB s).symm, hall,
      by omega, by omega⟩

theorem parseYearEnd_decomp {s : List Nat} {y : Nat}
    (h : parseYearEnd s = some y) :
    s = digitsOf s ∧ (digitsOf s).all isDigitB = true ∧
      (digitsOf s).length = 4 := by
  have hall := all_takeWhileD isDigitB s
  unfold parseYearEnd at h
  split_ifs at h with hc
  obtain ⟨hlen, hafter⟩ := hc
  have hs : s = digitsOf s ++ afterDigits s :=
    (List.takeWhile_append_dropWhile isDigitB s).symm
  rw [hafter, List.append_nil] at hs
  exact ⟨hs, hall, hlen⟩

theorem expectColon_decomp {s r : List Nat} (h : expectColon s = some r) :
    s = 58 :: r := by
  unfold expectColon at h
  split at h
  · injection h with h'
    rw [h']
  · exact absurd h (by simp)

/--
C9 (amended): `parse_canon_date` accepts only time fields one or two
digits wide: every payload it accepts cleans to
weekday‑ws‑month‑ws‑day‑ws‑hour`:`minute`:`second‑ws‑year, where the hour,
minute and second are digit runs of length 1 or 2 delimited by whitespace
and the two colons (the day is likewise 1–2 digits and the year exactly 4),
so a payload whose hour, minute or second field is three or more digits
wide is always rejected — while, contrary to the original claim's
"exactly 2" reading, one-digit fields are accepted.
-/
theorem parse_canon_date_time_field_widths (s : List Nat) (t : DateTime)
    (h : parse_canon_date s = some t) :
    ∃ wd w1 mo w2 dw w3 hw mw sw w4 yw : List Nat,
      pyCleanDate s =
        wd ++ (w1 ++ (mo ++ (w2 ++ (dw ++ (w3 ++ (hw ++ (58 :: (mw ++ (58 ::
          (sw ++ (w4 ++ yw))))))))))) ∧
      wd.length = 3 ∧
      w1 ≠ [] ∧ w1.all isWsB = true ∧
      mo.length = 3 ∧
      w2 ≠ [] ∧ w2.all isWsB = true ∧
      dw.all isDigitB = true ∧ 1 ≤ dw.length ∧ dw.length ≤ 2 ∧
      w3 ≠ [] ∧ w3.all isWsB = true ∧
      hw.all isDigitB = true ∧ 1 ≤ hw.length ∧ hw.length ≤ 2 ∧
      mw.all isDigitB = true ∧ 1 ≤ mw.length ∧ mw.length ≤ 2 ∧
      sw.all isDigitB = true ∧ 1 ≤ sw.length ∧ sw.length ≤ 2 ∧
      w4 ≠ [] ∧ w4.all isWsB = true ∧
      yw.all isDigitB = true ∧ yw.length = 4 := by
  unfold parse_canon_date at h
  set u := pyCleanDate s with hu
  unfold parseCanonClean at h
  simp only [Option.bind_eq_some] at h
  obtain ⟨s1, h1, s2, h2, p1, hmo, s4, h4, p2, h5, s6, h6, p3, h7, s8, h8, p4,
    h9, s10, h10, p5, h11, s12, h12, y, hy, hfin⟩ := h
  obtain ⟨e1, l1⟩ := parseWeekday_decomp h1
  obtain ⟨w1, e2, w1ne, w1a⟩ := skipWs1_decomp h2
  obtain ⟨e3, l3⟩ := parseMonth_decomp hmo
  obtain ⟨w2, e4, w2ne, w2a⟩ := skipWs1_decomp h4
  obtain ⟨e5, d5a, d5l1, d5l2⟩ := parseDayF_decomp h5
  obtain ⟨w3, e6, w3ne, w3a⟩ := skipWs1_decomp h6
  obtain ⟨e7, h7a, h7l1, h7l2⟩ := parse2Field_decomp h7
  have e8 := expectColon_decomp h8
  obtain ⟨e9, h9a, h9l1, h9l2⟩ := parse2Field_decomp h9
  have e10 := expectColon_decomp h10
  obtain ⟨e11, h11a, h11l1, h11l2⟩ := parse2Field_decomp h11
  obtain ⟨w4, e12, w4ne, w4a⟩ := skipWs1_decomp h12
  obtain ⟨ey, ya, yl⟩ := parseYearEnd_decomp hy
  refine ⟨u.take 3, w1, s2.take 3, w2, digitsOf s4, w3, digitsOf s6,
    digitsOf s8, digitsOf s10, w4, digitsOf s12, ?_, l1, w1ne, w1a, l3,
    w2ne, w2a, d5a, d5l1, d5l2, w3ne, w3a, h7a, h7l1, h7l2, h9a, h9l1, h9l2,
    h11a, h11l1, h11l2, w4ne, w4a, ya, yl⟩
  calc u = u.take 3 ++ s1 := e1
    _ = u.take 3 ++ (w1 ++ s2) := by rw [e2]
    _ = u.take 3 ++ (w1 ++ (s2.take 3 ++ p1.2)) := by
        conv_lhs => rw [e3]
    _ = u.take 3 ++ (w1 ++ (s2.take 3 ++ (w2 ++ s4))) := by rw [e4]
    _ = u.take 3 ++ (w1 ++ (s2.take 3 ++ (w2 ++ (digitsOf s4 ++ p2.2)))) := by
        conv_lhs => rw [e5]
    _ = u.take 3 ++ (w1 ++ (s2.take 3 ++ (w2 ++ (digitsOf s4 ++
          (w3 ++ s6))))) := by rw [e6]
    _ = u.take 3 ++ (w1 ++ (s2.take 3 ++ (w2 ++ (digitsOf s4 ++ (w3 ++
          (digitsOf s6 ++ p3.2)))))) := by
        conv_lhs => rw [e7]
    _ = u.take 3 ++ (w1 ++ (s2.take 3 ++ (w2 ++ (digitsOf s4 ++ (w3 ++
          (digitsOf s6 ++ (58 :: s8))))))) := by rw [e8]
    _ = u.take 3 ++ (w1 ++ (s2.take 3 ++ (w2 ++ (digitsOf s4 ++ (w3 ++
          (digitsOf s6 ++ (58 :: (digitsOf s8 ++ p4.2)))))))) := by
        conv_lhs => rw [e9]
    _ = u.take 3 ++ (w1 ++ (s2.take 3 ++ (w2 ++ (digitsOf s4 ++ (w3 ++
          (digitsOf s6 ++ (58 :: (digitsOf s8 ++ (58 :: s10))))))))) := by
        rw [e10]
    _ = u.take 3 ++ (w1 ++ (s2.take 3 ++ (w2 ++ (digitsOf s4 ++ (w3 ++
          (digitsOf s6 ++ (58 :: (digitsOf s8 ++ (58 ::
            (digitsOf s10 ++ p5.2)))))))))) := by
        conv_lhs => rw [e11]
    _ = u.take 3 ++ (w1 ++ (s2.take 3 ++ (w2 ++ (digitsOf s4 ++ (w3 ++
          (digitsOf s6 ++ (58 :: (digitsOf s8 ++ (58 ::
            (digitsOf s10 ++ (w4 ++ s12))))))))))) := by rw [e12]
    _ = u.take 3 ++ (w1 ++ (s2.take 3 ++ (w2 ++ (digitsOf s4 ++ (w3 ++
          (digitsOf s6 ++ (58 :: (digitsOf s8 ++ (58 ::
            (digitsOf s10 ++ (w4 ++ digitsOf s12))))))))))) := by
        conv_lhs => rw [ey]

/-- C9 witness: the field-width decomposition at the concrete accepted
payload `"MON AUG 28 14:14:28 2006"`. -/
theorem parse_canon_date_time_field_widths_witness :
    parse_canon_date [77, 79, 78, 32, 65, 85, 71, 32, 50, 56, 32, 49, 52, 58,
        49, 52, 58, 50, 56, 32, 50, 48, 48, 54] =
      some ⟨2006, 8, 28, 14, 14, 28⟩ ∧
    ∃ wd w1 mo w2 dw w3 hw mw sw w4 yw : List Nat,
      pyCleanDate [77, 79, 78, 32, 65, 85, 71, 32, 50, 56, 32, 49, 52, 58,
        49, 52, 58, 50, 56, 32, 50, 48, 48, 54] =
        wd ++ (w1 ++ (mo ++ (w2 ++ (dw ++ (w3 ++ (hw ++ (58 :: (mw ++ (58 ::
          (sw ++ (w4 ++ yw))))))))))) ∧
      wd.length = 3 ∧
      w1 ≠ [] ∧ w1.all isWsB = true ∧
      mo.length = 3 ∧
      w2 ≠ [] ∧ w2.all isWsB = true ∧
      dw.all isDigitB = true ∧ 1 ≤ dw.length ∧ dw.length ≤ 2 ∧
      w3 ≠ [] ∧ w3.all isWsB = true ∧
      hw.all isDigitB = true ∧ 1 ≤ hw.length ∧ hw.length ≤ 2 ∧
      mw.all isDigitB = true ∧ 1 ≤ mw.length ∧ mw.length ≤ 2 ∧
      sw.all isDigitB = true ∧ 1 ≤ sw.length ∧ sw.length ≤ 2 ∧
      w4 ≠ [] ∧ w4.all isWsB = true ∧
      yw.all isDigitB = true ∧ yw.length = 4 :=
  ⟨by decide, parse_canon_date_time_field_widths _ ⟨2006, 8, 28, 14, 14, 28⟩
    (by decide)⟩

/-! ### Round-trip lemmas for the Canon codec (C5) -/

theorem daysInMonth_le (y m : Nat) : daysInMonth y m ≤ 31 := by
  unfold daysInMonth
  split_ifs <;> omega

theorem parseWeekday_abbrev (w : Nat) (hw : w < 7) :
    ∀ r, parseWeekday (weekdayAbbrev w ++ r) = some r := by
  intro r
  interval_cases w <;> rfl

theorem skipWs1_month (m : Nat) (h1 : 1 ≤ m) (h2 : m ≤ 12) :
    ∀ r, skipWs1 (32 :: (monthAbbrev m ++ r)) = some (monthAbbrev m ++ r) := by
  intro r
  interval_cases m <;> rfl

theorem parseMonth_abbrev (m : Nat) (h1 : 1 ≤ m) (h2 : m ≤ 12) :
    ∀ r, parseMonth (monthAbbrev m ++ r) = some (m, r) := by
  intro r
  interval_cases m <;> rfl

theorem pad2_all_digits (n : Nat) (h : n < 100) : (pad2 n).all isDigitB = true := by
  simp [pad2, isDigitB]
  omega

theorem skipWs1_pad2 (n : Nat) (h : n < 100) :
    ∀ r, skipWs1 (32 :: (pad2 n ++ r)) = some (pad2 n ++ r) := by
  intro r
  show (if isWsB 32 = true then
      some (List.dropWhile isWsB ((48 + n / 10) :: (48 + n % 10) :: r))
    else none) = some (pad2 n ++ r)
  rw [if_pos (show isWsB 32 = true from rfl), List.dropWhile_cons,
    if_neg (by simp [isWsB_eq_false_of_digit (show isDigitB (48 + n / 10) = true by
      simp [isDigitB]; omega)])]
  rfl

theorem fieldVal_pad2 (n : Nat) (h : n < 100) : fieldVal (pad2 n) = n := by
  simp [fieldVal, pad2]
  omega

theorem digitsOf_pad2 (n b : Nat) (h : n < 100) (hb : isDigitB b = false) (r : List Nat) :
    digitsOf (pad2 n ++ b :: r) = pad2 n ∧ afterDigits (pad2 n ++ b :: r) = b :: r :=
  ⟨takeWhile_append_run (pad2_all_digits n h) hb r,
    dropWhile_append_run (pad2_all_digits n h) hb r⟩

theorem parseDayF_pad2 (d b : Nat) (h1 : 1 ≤ d) (h2 : d ≤ 31)
    (hb : isDigitB b = false) :
    ∀ r, parseDayF (pad2 d ++ b :: r) = some (d, b :: r) := by
  intro r
  obtain ⟨hdig, haft⟩ := digitsOf_pad2 d b (by omega) hb r
  unfold parseDayF
  rw [hdig, haft, fieldVal_pad2 d (by omega)]
  rw [if_neg (by simp [pad2]), if_pos ⟨by simp [pad2], h1, h2⟩]

theorem parse2Field_pad2 (maxv n b : Nat) (h1 : n ≤ maxv) (h2 : n < 100)
    (hb : isDigitB b = false) :
    ∀ r, parse2Field maxv (pad2 n ++ b :: r) = some (n, b :: r) := by
  intro r
  obtain ⟨hdig, haft⟩ := digitsOf_pad2 n b h2 hb r
  unfold parse2Field
  rw [hdig, haft, fieldVal_pad2 n h2]
  rw [if_neg (by simp [pad2]), if_pos ⟨by simp [pad2], h1⟩]

theorem expectColon_cons : ∀ r : List Nat, expectColon (58 :: r) = some r :=
  fun _ => rfl

theorem natDigits_small (n : Nat) (h : n < 10) : natDigits n = [48 + n] := by
  show natDigitsAux (n + 1) n = _
  rw [show natDigitsAux (n + 1) n =
    (if n < 10 then [48 + n] else natDigitsAux n (n / 10) ++ [48 + n % 10]) from rfl,
    if_pos h]

theorem natDigits_step (n : Nat) (h : 10 ≤ n) :
    natDigits n = natDigits (n / 10) ++ [48 + n % 10] := by
  show natDigitsAux (n + 1) n = _
  rw [show natDigitsAux (n + 1) n =
    (if n < 10 then [48 + n] else natDigitsAux n (n / 10) ++ [48 + n % 10]) from rfl,
    if_neg (by omega), natDigitsAux_eq (n / 10) n (Nat.div_lt_self (by omega) (by omega))]

theorem natDigits_wide (y : Nat) (h1 : 1000 ≤ y) (h2 : y ≤ 9999) :
    natDigits y = [48 + y / 1000, 48 + y / 100 % 10, 48 + y / 10 % 10, 48 + y % 10] := by
  have e1 : y / 10 / 10 = y / 100 := by omega
  have e2 : y / 100 / 10 = y / 1000 := by omega
  rw [natDigits_step y (by omega), natDigits_step (y / 10) (by omega), e1,
    natDigits_step (y / 100) (by omega), e2, natDigits_small (y / 1000) (by omega)]
  simp

theorem skipWs1_natDigits (y : Nat) (h1 : 1000 ≤ y) (h2 : y ≤ 9999) :
    skipWs1 (32 :: natDigits y) = some (natDigits y) := by
  rw [natDigits_wide y h1 h2]
  show (if isWsB 32 = true then
      some (List.dropWhile isWsB ((48 + y / 1000) ::
        [48 + y / 100 % 10, 48 + y / 10 % 10, 48 + y % 10]))
    else none) = _
  rw [if_pos (show isWsB 32 = true from rfl), List.dropWhile_cons,
    if_neg (by simp [isWsB_eq_false_of_digit (show isDigitB (48 + y / 1000) = true by
      simp [isDigitB]; omega)])]

theorem parseYearEnd_natDigits (y : Nat) (h1 : 1000 ≤ y) (h2 : y ≤ 9999) :
    parseYearEnd (natDigits y) = some y := by
  have hall := natDigits_all_digits y
  unfold parseYearEnd digitsOf afterDigits
  rw [takeWhile_eq_self_of_all hall, dropWhile_eq_nil_of_all hall]
  rw [if_pos ⟨by rw [natDigits_wide y h1 h2]; rfl, rfl⟩, fieldVal_natDigits]

theorem weekdayAbbrev_head (w : Nat) (hw : w < 7) :
    ∃ x l, weekdayAbbrev w = x :: l ∧ isWsB x = false := by
  interval_cases w
  · exact ⟨77, [79, 78], rfl, rfl⟩
  · exact ⟨84, [85, 69], rfl, rfl⟩
  · exact ⟨87, [69, 68], rfl, rfl⟩
  · exact ⟨84, [72, 85], rfl, rfl⟩
  · exact ⟨70, [82, 73], rfl, rfl⟩
  · exact ⟨83, [65, 84], rfl, rfl⟩
  · exact ⟨83, [85, 78], rfl, rfl⟩

/--
C5: for every datetime `t` with seconds precision and year 1000–9999,
`parse_canon_date (format_canon_date t) = t`.
-/
theorem canon_codec_roundtrip (t : DateTime) (h : ValidCanonDT t) :
    parse_canon_date (format_canon_date t) = some t := by
  obtain ⟨y, mo, d, hh, mi, ss⟩ := t
  obtain ⟨hm1, hm2, hd1, hd2, hh1, hmi1, hss1, hy1, hy2⟩ := h
  dsimp only at hm1 hm2 hd1 hd2 hh1 hmi1 hss1 hy1 hy2
  have hd31 : d ≤ 31 := le_trans hd2 (daysInMonth_le y mo)
  have hw : weekdayIdx y mo d < 7 := Nat.mod_lt _ (by norm_num)
  have hF : format_canon_date ⟨y, mo, d, hh, mi, ss⟩ =
      weekdayAbbrev (weekdayIdx y mo d) ++ 32 :: (monthAbbrev mo ++
        32 :: (pad2 d ++ 32 :: (pad2 hh ++ 58 :: (pad2 mi ++
          58 :: (pad2 ss ++ 32 :: natDigits y))))) := by
    simp [format_canon_date, List.append_assoc]
  obtain ⟨x, wl, hwk, hxw⟩ := weekdayAbbrev_head (weekdayIdx y mo d) hw
  have hhead : (weekdayAbbrev (weekdayIdx y mo d) ++ 32 :: (monthAbbrev mo ++
      32 :: (pad2 d ++ 32 :: (pad2 hh ++ 58 :: (pad2 mi ++
        58 :: (pad2 ss ++ 32 :: natDigits y)))))).head? = some x := by
    rw [hwk]
    rfl
  have hlast : (weekdayAbbrev (weekdayIdx y mo d) ++ 32 :: (monthAbbrev mo ++
      32 :: (pad2 d ++ 32 :: (pad2 hh ++ 58 :: (pad2 mi ++
        58 :: (pad2 ss ++ 32 :: natDigits y)))))).getLast? = some (48 + y % 10) := by
    rw [natDigits_wide y hy1 hy2]
    simp [List.getLast?_append, List.getLast?_cons_cons, List.getLast?_cons, pad2]
  have hclean := pyCleanDate_eq_self hhead hxw hlast
    (by
      apply isWsB_eq_false_of_digit
      simp [isDigitB]
      omega)
    (by omega)
  unfold parse_canon_date
  rw [hF, hclean]
  simp only [parseCanonClean, Option.some_bind, Option.none_bind,
    parseWeekday_abbrev (weekdayIdx y mo d) hw,
    skipWs1_month mo hm1 hm2,
    parseMonth_abbrev mo hm1 hm2,
    skipWs1_pad2 d (by omega),
    parseDayF_pad2 d 32 hd1 hd31 (by decide),
    skipWs1_pad2 hh (by omega),
    parse2Field_pad2 23 hh 58 hh1 (by omega) (by decide),
    expectColon_cons,
    parse2Field_pad2 59 mi 58 hmi1 (by omega) (by decide),
    parse2Field_pad2 61 ss 32 (by omega) (by omega) (by decide),
    skipWs1_natDigits y hy1 hy2,
    parseYearEnd_natDigits y hy1 hy2]
  rw [if_pos ⟨by omega, hd1, hd2, hh1, hmi1, hss1⟩]

/-- C5 witness: the round trip at 2006-08-28 14:14:28 (the spec's concrete
scenario; its encoding is `"MON AUG 28 14:14:28 2006"`). -/
theorem canon_codec_roundtrip_witness :
    ValidCanonDT ⟨2006, 8, 28, 14, 14, 28⟩ ∧
      parse_canon_date (format_canon_date ⟨2006, 8, 28, 14, 14, 28⟩) =
        some ⟨2006, 8, 28, 14, 14, 28⟩ :=
  ⟨by decide, canon_codec_roundtrip ⟨2006, 8, 28, 14, 14, 28⟩ (by decide)⟩

/-- C10 witness: the divergence at `n = 5` (`"+5m"` / `"-5m"`) and the
changer's overflow at `n = 33333334`. -/
theorem fixer_cli_vs_changer_month_unit_witness :
    fixer_parse_time [43, 53, 109] = .ok (300000000 : Int) ∧
      parse_time_adjustment [43, 53, 109] = .ok (12960000000000 : Int) ∧
      parse_time_adjustment [43, 51, 51, 51, 51, 51, 51, 51, 52, 109] =
        .error .overflowError := by
  have h := (fixer_cli_vs_changer_month_unit 5 (by decide)).1 (by decide)
  have ho := (fixer_cli_vs_changer_month_unit 33333334 (by decide)).2
    (by decide)
  have h1 := h.1
  have h3 := h.2.2.1
  have ho1 := ho.1
  norm_num at h1 h3
  exact ⟨by rw [show ([43, 53, 109] : List Nat) =
      43 :: (natDigits 5 ++ [109]) from rfl]; exact h1,
    by rw [show ([43, 53, 109] : List Nat) =
      43 :: (natDigits 5 ++ [109]) from rfl]; exact h3,
    by rw [show ([43, 51, 51, 51, 51, 51, 51, 51, 52, 109] : List Nat) =
      43 :: (natDigits 33333334 ++ [109]) from rfl]; exact ho1⟩

/-! ### Inverse of the ordinal conversion (for the zero-delta property) -/

theorem daysSpan_succ_right : ∀ (k y0 : Nat),
    daysSpan y0 (k + 1) = daysSpan y0 k + daysInYear (y0 + k) := by
  intro k
  induction k with
  | zero =>
    intro y0
    show daysInYear y0 + daysSpan (y0 + 1) 0 = daysSpan y0 0 + daysInYear (y0 + 0)
    show daysInYear y0 + 0 = 0 + daysInYear y0
    omega
  | succ k ih =>
    intro y0
    show daysInYear y0 + daysSpan (y0 + 1) (k + 1) =
      (daysInYear y0 + daysSpan (y0 + 1) k) + daysInYear (y0 + (k + 1))
    rw [ih (y0 + 1), show y0 + 1 + k = y0 + (k + 1) from by omega]
    omega

theorem isLeapYear_iff (y : Nat) :
    isLeapYear y = true ↔ ((y % 4 = 0 ∧ y % 100 ≠ 0) ∨ y % 400 = 0) := by
  simp [isLeapYear]

theorem daysSpan_one : ∀ k : Nat,
    daysSpan 1 k = 365 * k + k / 4 - k / 100 + k / 400 := by
  intro k
  induction k with
  | zero => rfl
  | succ k ih =>
    rw [daysSpan_succ_right k 1, ih]
    by_cases hc : ((k + 1) % 4 = 0 ∧ (k + 1) % 100 ≠ 0) ∨ (k + 1) % 400 = 0
    · have : daysInYear (1 + k) = 366 := by
        unfold daysInYear
        rw [if_pos ((isLeapYear_iff (1 + k)).2 (by
          rw [show 1 + k = k + 1 from by omega]
          exact hc))]
      rw [this]
      omega
    · have : daysInYear (1 + k) = 365 := by
        unfold daysInYear
        rw [if_neg (by
          rw [isLeapYear_iff, show 1 + k = k + 1 from by omega]
          exact hc)]
      rw [this]
      omega

theorem yearFromDaysAux_spec : ∀ (k fuel y0 doy : Nat),
    doy < daysInYear (y0 + k) → k < fuel →
    yearFromDaysAux fuel y0 (daysSpan y0 k + doy) = (y0 + k, doy) := by
  intro k
  induction k with
  | zero =>
    intro fuel y0 doy hdoy hf
    cases fuel with
    | zero => omega
    | succ f =>
      show (if 0 + doy < daysInYear y0 then (y0, 0 + doy)
        else yearFromDaysAux f (y0 + 1) (0 + doy - daysInYear y0)) = (y0 + 0, doy)
      rw [if_pos (by simpa using hdoy)]
      simp
  | succ k ih =>
    intro fuel y0 doy hdoy hf
    cases fuel with
    | zero => omega
    | succ f =>
      have hds : daysSpan y0 (k + 1) + doy =
          daysInYear y0 + (daysSpan (y0 + 1) k + doy) := by
        show daysInYear y0 + daysSpan (y0 + 1) k + doy = _
        omega
      show (if daysSpan y0 (k + 1) + doy < daysInYear y0 then
          (y0, daysSpan y0 (k + 1) + doy)
        else yearFromDaysAux f (y0 + 1)
          (daysSpan y0 (k + 1) + doy - daysInYear y0)) = (y0 + (k + 1), doy)
      rw [if_neg (by omega), show daysSpan y0 (k + 1) + doy - daysInYear y0 =
        daysSpan (y0 + 1) k + doy from by omega]
      rw [ih f (y0 + 1) doy (by
        rw [show y0 + 1 + k = y0 + (k + 1) from by omega]
        exact hdoy) (by omega)]
      rw [show y0 + 1 + k = y0 + (k + 1) from by omega]

set_option maxHeartbeats 1000000 in
theorem doy_lt_daysInYear (y mo d : Nat) (h1 : 1 ≤ mo) (h2 : mo ≤ 12)
    (h3 : 1 ≤ d) (h4 : d ≤ daysInMonth y mo) :
    daysBeforeMonth y mo + (d - 1) < daysInYear y := by
  have hdbm : ∀ m : Nat, daysBeforeMonth y m =
      [0, 0, 31, 59, 90, 120, 151, 181, 212, 243, 273, 304, 334].getD m 0 +
        (if 2 < m ∧ isLeapYear y = true then 1 else 0) := fun m => rfl
  by_cases hl : isLeapYear y = true <;>
    interval_cases mo <;>
      simp only [daysInMonth, daysInYear, hdbm, hl, List.getD] at h4 ⊢ <;>
        norm_num at h4 ⊢ <;> omega

set_option maxHeartbeats 1000000 in
theorem monthFromDoy_inv (y mo dd : Nat) (h1 : 1 ≤ mo) (h2 : mo ≤ 12)
    (h3 : 1 ≤ dd) (h4 : dd ≤ daysInMonth y mo) :
    monthFromDoy y (daysBeforeMonth y mo + (dd - 1)) = (mo, dd) := by
  by_cases hl : isLeapYear y = true
  ·
    have f1 : daysBeforeMonth y 1 = 0 := by norm_num [daysBeforeMonth, hl]
    have e2 : daysBeforeMonth y 2 = 31 := by norm_num [daysBeforeMonth, hl]
    have e3 : daysBeforeMonth y 3 = 60 := by norm_num [daysBeforeMonth, hl]
    have e4 : daysBeforeMonth y 4 = 91 := by norm_num [daysBeforeMonth, hl]
    have e5 : daysBeforeMonth y 5 = 121 := by norm_num [daysBeforeMonth, hl]
    have e6 : daysBeforeMonth y 6 = 152 := by norm_num [daysBeforeMonth, hl]
    have e7 : daysBeforeMonth y 7 = 182 := by norm_num [daysBeforeMonth, hl]
    have e8 : daysBeforeMonth y 8 = 213 := by norm_num [daysBeforeMonth, hl]
    have e9 : daysBeforeMonth y 9 = 244 := by norm_num [daysBeforeMonth, hl]
    have e10 : daysBeforeMonth y 10 = 274 := by norm_num [daysBeforeMonth, hl]
    have e11 : daysBeforeMonth y 11 = 305 := by norm_num [daysBeforeMonth, hl]
    have e12 : daysBeforeMonth y 12 = 335 := by norm_num [daysBeforeMonth, hl]
    have dm1 : daysInMonth y 1 = 31 := by norm_num [daysInMonth, hl]
    have dm2 : daysInMonth y 2 = 29 := by norm_num [daysInMonth, hl]
    have dm3 : daysInMonth y 3 = 31 := by norm_num [daysInMonth, hl]
    have dm4 : daysInMonth y 4 = 30 := by norm_num [daysInMonth, hl]
    have dm5 : daysInMonth y 5 = 31 := by norm_num [daysInMonth, hl]
    have dm6 : daysInMonth y 6 = 30 := by norm_num [daysInMonth, hl]
    have dm7 : daysInMonth y 7 = 31 := by norm_num [daysInMonth, hl]
    have dm8 : daysInMonth y 8 = 31 := by norm_num [daysInMonth, hl]
    have dm9 : daysInMonth y 9 = 30 := by norm_num [daysInMonth, hl]
    have dm10 : daysInMonth y 10 = 31 := by norm_num [daysInMonth, hl]
    have dm11 : daysInMonth y 11 = 30 := by norm_num [daysInMonth, hl]
    have dm12 : daysInMonth y 12 = 31 := by norm_num [daysInMonth, hl]
    interval_cases mo
    · rw [dm1] at h4
      unfold monthFromDoy
      rw [f1, e2]
      rw [if_pos (by omega)]
      exact Prod.ext rfl (by omega)
    · rw [dm2] at h4
      unfold monthFromDoy
      rw [e2, e3]
      rw [if_neg (by omega), if_pos (by omega)]
      exact Prod.ext rfl (by omega)
    · rw [dm3] at h4
      unfold monthFromDoy
      rw [e2, e3, e4]
      rw [if_neg (by omega), if_neg (by omega), if_pos (by omega)]
      exact Prod.ext rfl (by omega)
    · rw [dm4] at h4
      unfold monthFromDoy
      rw [e2, e3, e4, e5]
      rw [if_neg (by omega), if_neg (by exact by omega), if_neg (by omega), if_pos (by omega)]
      exact Prod.ext rfl (by omega)
    · rw [dm5] at h4
      unfold monthFromDoy
      rw [e2, e3, e4, e5, e6]
      rw [if_neg (by omega), if_neg (by exact by omega), if_neg (by omega), if_neg (by exact by omega), if_pos (by omega)]
      exact Prod.ext rfl (by omega)
    · rw [dm6] at h4
      unfold monthFromDoy
      rw [e2, e3, e4, e5, e6, e7]
      rw [if_neg (by omega), if_neg (by exact by omega), if_neg (by omega), if_neg (by exact by omega), if_neg (by omega), if_pos (by omega)]
      exact Prod.ext rfl (by omega)
    · rw [dm7] at h4
      unfold monthFromDoy
      rw [e2, e3, e4, e5, e6, e7, e8]
      rw [if_neg (by omega), if_neg (by exact by omega), if_neg (by omega), if_neg (by exact by omega), if_neg (by omega), if_neg (by exact by omega), if_pos (by omega)]
      exact Prod.ext rfl (by omega)
    · rw [dm8] at h4
      unfold monthFromDoy
      rw [e2, e3, e4, e5, e6, e7, e8, e9]
      rw [if_neg (by omega), if_neg (by exact by omega), if_neg (by omega), if_neg (by exact by omega), if_neg (by omega), if_neg (by exact by omega), if_neg (by omega), if_pos (by omega)]
      exact Prod.ext rfl (by omega)
    · rw [dm9] at h4
      unfold monthFromDoy
      rw [e2, e3, e4, e5, e6, e7, e8, e9, e10]
      rw [if_neg (by omega), if_neg (by exact by omega), if_neg (by omega), if_neg (by exact by omega), if_neg (by omega), if_neg (by exact by omega), if_neg (by omega), if_neg (by exact by omega), if_pos (by omega)]
      exact Prod.ext rfl (by omega)
    · rw [dm10] at h4
      unfold monthFromDoy
      rw [e2, e3, e4, e5, e6, e7, e8, e9, e10, e11]
      rw [if_neg (by omega), if_neg (by exact by omega), if_neg (by omega), if_neg (by exact by omega), if_neg (by omega), if_neg (by exact by omega), if_neg (by omega), if_neg (by exact by omega), if_neg (by omega), if_pos (by omega)]
      exact Prod.ext rfl (by omega)
    · rw [dm11] at h4
      unfold monthFromDoy
      rw [e2, e3, e4, e5, e6, e7, e8, e9, e10, e11, e12]
      rw [if_neg (by omega), if_neg (by exact by omega), if_neg (by omega), if_neg (by exact by omega), if_neg (by omega), if_neg (by exact by omega), if_neg (by omega), if_neg (by exact by omega), if_neg (by omega), if_neg (by exact by omega), if_pos (by omega)]
      exact Prod.ext rfl (by omega)
    · rw [dm12] at h4
      unfold monthFromDoy
      rw [e2, e3, e4, e5, e6, e7, e8, e9, e10, e11, e12]
      rw [if_neg (by omega), if_neg (by exact by omega), if_neg (by omega), if_neg (by exact by omega), if_neg (by omega), if_neg (by exact by omega), if_neg (by omega), if_neg (by exact by omega), if_neg (by omega), if_neg (by exact by omega), if_neg (by omega)]
      exact Prod.ext rfl (by omega)
  ·
    have f1 : daysBeforeMonth y 1 = 0 := by norm_num [daysBeforeMonth, hl]
    have e2 : daysBeforeMonth y 2 = 31 := by norm_num [daysBeforeMonth, hl]
    have e3 : daysBeforeMonth y 3 = 59 := by norm_num [daysBeforeMonth, hl]
    have e4 : daysBeforeMonth y 4 = 90 := by norm_num [daysBeforeMonth, hl]
    have e5 : daysBeforeMonth y 5 = 120 := by norm_num [daysBeforeMonth, hl]
    have e6 : daysBeforeMonth y 6 = 151 := by norm_num [daysBeforeMonth, hl]
    have e7 : daysBeforeMonth y 7 = 181 := by norm_num [daysBeforeMonth, hl]
    have e8 : daysBeforeMonth y 8 = 212 := by norm_num [daysBeforeMonth, hl]
    have e9 : daysBeforeMonth y 9 = 243 := by norm_num [daysBeforeMonth, hl]
    have e10 : daysBeforeMonth y 10 = 273 := by norm_num [daysBeforeMonth, hl]
    have e11 : daysBeforeMonth y 11 = 304 := by norm_num [daysBeforeMonth, hl]
    have e12 : daysBeforeMonth y 12 = 334 := by norm_num [daysBeforeMonth, hl]
    have dm1 : daysInMonth y 1 = 31 := by norm_num [daysInMonth, hl]
    have dm2 : daysInMonth y 2 = 28 := by norm_num [daysInMonth, hl]
    have dm3 : daysInMonth y 3 = 31 := by norm_num [daysInMonth, hl]
    have dm4 : daysInMonth y 4 = 30 := by norm_num [daysInMonth, hl]
    have dm5 : daysInMonth y 5 = 31 := by norm_num [daysInMonth, hl]
    have dm6 : daysInMonth y 6 = 30 := by norm_num [daysInMonth, hl]
    have dm7 : daysInMonth y 7 = 31 := by norm_num [daysInMonth, hl]
    have dm8 : daysInMonth y 8 = 31 := by norm_num [daysInMonth, hl]
    have dm9 : daysInMonth y 9 = 30 := by norm_num [daysInMonth, hl]
    have dm10 : daysInMonth y 10 = 31 := by norm_num [daysInMonth, hl]
    have dm11 : daysInMonth y 11 = 30 := by norm_num [daysInMonth, hl]
    have dm12 : daysInMonth y 12 = 31 := by norm_num [daysInMonth, hl]
    interval_cases mo
    · rw [dm1] at h4
      unfold monthFromDoy
      rw [f1, e2]
      rw [if_pos (by omega)]
      exact Prod.ext rfl (by omega)
    · rw [dm2] at h4
      unfold monthFromDoy
      rw [e2, e3]
      rw [if_neg (by omega), if_pos (by omega)]
      exact Prod.ext rfl (by omega)
    · rw [dm3] at h4
      unfold monthFromDoy
      rw [e2, e3, e4]
      rw [if_neg (by omega), if_neg (by omega), if_pos (by omega)]
      exact Prod.ext rfl (by omega)
    · rw [dm4] at h4
      unfold monthFromDoy
      rw [e2, e3, e4, e5]
      rw [if_neg (by omega), if_neg (by exact by omega), if_neg (by omega), if_pos (by omega)]
      exact Prod.ext rfl (by omega)
    · rw [dm5] at h4
      unfold monthFromDoy
      rw [e2, e3, e4, e5, e6]
      rw [if_neg (by omega), if_neg (by exact by omega), if_neg (by omega), if_neg (by exact by omega), if_pos (by omega)]
      exact Prod.ext rfl (by omega)
    · rw [dm6] at h4
      unfold monthFromDoy
      rw [e2, e3, e4, e5, e6, e7]
      rw [if_neg (by omega), if_neg (by exact by omega), if_neg (by omega), if_neg (by exact by omega), if_neg (by omega), if_pos (by omega)]
      exact Prod.ext rfl (by omega)
    · rw [dm7] at h4
      unfold monthFromDoy
      rw [e2, e3, e4, e5, e6, e7, e8]
      rw [if_neg (by omega), if_neg (by exact by omega), if_neg (by omega), if_neg (by exact by omega), if_neg (by omega), if_neg (by exact by omega), if_pos (by omega)]
      exact Prod.ext rfl (by omega)
    · rw [dm8] at h4
      unfold monthFromDoy
      rw [e2, e3, e4, e5, e6, e7, e8, e9]
      rw [if_neg (by omega), if_neg (by exact by omega), if_neg (by omega), if_neg (by exact by omega), if_neg (by omega), if_neg (by exact by omega), if_neg (by omega), if_pos (by omega)]
      exact Prod.ext rfl (by omega)
    · rw [dm9] at h4
      unfold monthFromDoy
      rw [e2, e3, e4, e5, e6, e7, e8, e9, e10]
      rw [if_neg (by omega), if_neg (by exact by omega), if_neg (by omega), if_neg (by exact by omega), if_neg (by omega), if_neg (by exact by omega), if_neg (by omega), if_neg (by exact by omega), if_pos (by omega)]
      exact Prod.ext rfl (by omega)
    · rw [dm10] at h4
      unfold monthFromDoy
      rw [e2, e3, e4, e5, e6, e7, e8, e9, e10, e11]
      rw [if_neg (by omega), if_neg (by exact by omega), if_neg (by omega), if_neg (by exact by omega), if_neg (by omega), if_neg (by exact by omega), if_neg (by omega), if_neg (by exact by omega), if_neg (by omega), if_pos (by omega)]
      exact Prod.ext rfl (by omega)
    · rw [dm11] at h4
      unfold monthFromDoy
      rw [e2, e3, e4, e5, e6, e7, e8, e9, e10, e11, e12]
      rw [if_neg (by omega), if_neg (by exact by omega), if_neg (by omega), if_neg (by exact by omega), if_neg (by omega), if_neg (by exact by omega), if_neg (by omega), if_neg (by exact by omega), if_neg (by omega), if_neg (by exact by omega), if_pos (by omega)]
      exact Prod.ext rfl (by omega)
    · rw [dm12] at h4
      unfold monthFromDoy
      rw [e2, e3, e4, e5, e6, e7, e8, e9, e10, e11, e12]
      rw [if_neg (by omega), if_neg (by exact by omega), if_neg (by omega), if_neg (by exact by omega), if_neg (by omega), if_neg (by exact by omega), if_neg (by omega), if_neg (by exact by omega), if_neg (by omega), if_neg (by exact by omega), if_neg (by omega)]
      exact Prod.ext rfl (by omega)

theorem dayNumber_decomp (y mo d : Nat) (hy : 1 ≤ y) :
    dayNumber y mo d = daysSpan 1 (y - 1) + (daysBeforeMonth y mo + (d - 1)) := by
  rw [daysSpan_one]
  unfold dayNumber
  omega

theorem dateFromDayNumber_inv (y mo d : Nat) (hy1 : 1 ≤ y) (hy2 : y ≤ 9999)
    (h1 : 1 ≤ mo) (h2 : mo ≤ 12) (h3 : 1 ≤ d) (h4 : d ≤ daysInMonth y mo) :
    dateFromDayNumber (dayNumber y mo d) = (y, mo, d) := by
  have hdoy := doy_lt_daysInYear y mo d h1 h2 h3 h4
  have hyear : yearFromDaysAux 10000 1 (dayNumber y mo d) =
      (y, daysBeforeMonth y mo + (d - 1)) := by
    rw [dayNumber_decomp y mo d hy1]
    rw [yearFromDaysAux_spec (y - 1) 10000 1 (daysBeforeMonth y mo + (d - 1))
      (by
        rw [show 1 + (y - 1) = y from by omega]
        exact hdoy) (by omega)]
    rw [show 1 + (y - 1) = y from by omega]
  unfold dateFromDayNumber
  rw [hyear]
  simp only
  rw [monthFromDoy_inv y mo d h1 h2 h3 h4]

theorem dayNumber_le (y mo d : Nat) (hy1 : 1 ≤ y) (hy2 : y ≤ 9999)
    (h1 : 1 ≤ mo) (h2 : mo ≤ 12) (h3 : 1 ≤ d) (h4 : d ≤ daysInMonth y mo) :
    dayNumber y mo d ≤ 3652058 := by
  have hdoy := doy_lt_daysInYear y mo d h1 h2 h3 h4
  unfold dayNumber
  by_cases hl : isLeapYear y = true
  · rw [isLeapYear_iff] at hl
    have h366 : daysInYear y = 366 := by
      unfold daysInYear
      rw [if_pos ((isLeapYear_iff y).2 hl)]
    rw [h366] at hdoy
    omega
  · have h365 : daysInYear y = 365 := by
      unfold daysInYear
      rw [if_neg (by rw [isLeapYear_iff]; intro hc; exact hl ((isLeapYear_iff y).2 hc))]
    rw [h365] at hdoy
    omega

/-- `datetime + timedelta(0)` is the identity on valid datetimes. -/
theorem dt_add_zero (t : DateTime) (h : ValidPyDT t) : dt_add t 0 = some t := by
  obtain ⟨y, mo, d, hh, mi, ss⟩ := t
  obtain ⟨hy1, hy2, hm1, hm2, hd1, hd2, hh1, hmi1, hss1⟩ := h
  dsimp only at hy1 hy2 hm1 hm2 hd1 hd2 hh1 hmi1 hss1
  unfold dt_add
  have htot : ((dayNumber y mo d + 1 : Nat) : Int) * 86400000000 +
      ((hh * 3600 + mi * 60 + ss : Nat) : Int) * 1000000 + 0 =
      ((86400000000 * (dayNumber y mo d + 1) +
        (hh * 3600 + mi * 60 + ss) * 1000000 : Nat) : Int) := by
    push_cast
    ring
  rw [htot]
  have hsec : hh * 3600 + mi * 60 + ss < 86400 := by omega
  have hdiv : (86400000000 * (dayNumber y mo d + 1) +
      (hh * 3600 + mi * 60 + ss) * 1000000) / 86400000000 =
      dayNumber y mo d + 1 := by
    rw [Nat.mul_add_div (by norm_num)]
    have : (hh * 3600 + mi * 60 + ss) * 1000000 / 86400000000 = 0 :=
      Nat.div_eq_of_lt (by omega)
    omega
  have hmod : (86400000000 * (dayNumber y mo d + 1) +
      (hh * 3600 + mi * 60 + ss) * 1000000) % 86400000000 =
      (hh * 3600 + mi * 60 + ss) * 1000000 := by
    rw [Nat.mul_add_mod]
    exact Nat.mod_eq_of_lt (by omega)
  unfold dtFromTotalUs
  rw [show (86400000000 : Int) = ((86400000000 : Nat) : Int) from by norm_num,
    ← Int.ofNat_fdiv, ← Int.ofNat_fmod, hdiv, hmod]
  have hord := dayNumber_le y mo d hy1 hy2 hm1 hm2 hd1 hd2
  rw [if_pos ⟨by exact_mod_cast Nat.succ_pos _, by exact_mod_cast by omega⟩]
  have htn : ((dayNumber y mo d + 1 : Nat) : Int).toNat = dayNumber y mo d + 1 :=
    Int.toNat_ofNat _
  have hrn : (((hh * 3600 + mi * 60 + ss) * 1000000 : Nat) : Int).toNat =
      (hh * 3600 + mi * 60 + ss) * 1000000 := Int.toNat_ofNat _
  rw [htn, hrn, Nat.add_sub_cancel,
    dateFromDayNumber_inv y mo d hy1 hy2 hm1 hm2 hd1 hd2]
  have hus : (hh * 3600 + mi * 60 + ss) * 1000000 / 1000000 =
      hh * 3600 + mi * 60 + ss := Nat.mul_div_cancel _ (by norm_num)
  rw [hus]
  have e1 : (hh * 3600 + mi * 60 + ss) / 3600 = hh := by omega
  have e2 : (hh * 3600 + mi * 60 + ss) % 3600 / 60 = mi := by omega
  have e3 : (hh * 3600 + mi * 60 + ss) % 60 = ss := by omega
  rw [e1, e2, e3]

/-! ### Validity of parsed datetimes, locator bounds, splice lemmas -/

theorem fieldVal_aux_lt : ∀ (ds : List Nat) (a : Nat), ds.all isDigitB = true →
    ds.foldl (fun x b => 10 * x + (b - 48)) a < (a + 1) * 10 ^ ds.length := by
  intro ds
  induction ds with
  | nil =>
    intro a _
    simpa using Nat.lt_succ_self a
  | cons b bs ih =>
    intro a h
    simp only [List.all_cons, Bool.and_eq_true] at h
    have hb : b - 48 ≤ 9 := by
      have := h.1
      simp [isDigitB] at this
      omega
    show bs.foldl (fun x b => 10 * x + (b - 48)) (10 * a + (b - 48)) <
      (a + 1) * 10 ^ (bs.length + 1)
    calc bs.foldl (fun x b => 10 * x + (b - 48)) (10 * a + (b - 48)) <
        (10 * a + (b - 48) + 1) * 10 ^ bs.length := ih (10 * a + (b - 48)) h.2
      _ ≤ ((a + 1) * 10) * 10 ^ bs.length := Nat.mul_le_mul_right _ (by omega)
      _ = (a + 1) * 10 ^ (bs.length + 1) := by ring

theorem fieldVal_lt_pow (ds : List Nat) (h : ds.all isDigitB = true) :
    fieldVal ds < 10 ^ ds.length := by
  have := fieldVal_aux_lt ds 0 h
  simpa [fieldVal] using this


theorem monthVal_le (p : List Nat) : monthVal p ≤ 12 := by
  unfold monthVal
  by_cases c1 : p = [106, 97, 110]
  · rw [if_pos c1]
    norm_num
  · rw [if_neg c1]
    by_cases c2 : p = [102, 101, 98]
    · rw [if_pos c2]
      norm_num
    · rw [if_neg c2]
      by_cases c3 : p = [109, 97, 114]
      · rw [if_pos c3]
        norm_num
      · rw [if_neg c3]
        by_cases c4 : p = [97, 112, 114]
        · rw [if_pos c4]
          norm_num
        · rw [if_neg c4]
          by_cases c5 : p = [109, 97, 121]
          · rw [if_pos c5]
            norm_num
          · rw [if_neg c5]
            by_cases c6 : p = [106, 117, 110]
            · rw [if_pos c6]
              norm_num
            · rw [if_neg c6]
              by_cases c7 : p = [106, 117, 108]
              · rw [if_pos c7]
                norm_num
              · rw [if_neg c7]
                by_cases c8 : p = [97, 117, 103]
                · rw [if_pos c8]
                  norm_num
                · rw [if_neg c8]
                  by_cases c9 : p = [115, 101, 112]
                  · rw [if_pos c9]
                    norm_num
                  · rw [if_neg c9]
                    by_cases c10 : p = [111, 99, 116]
                    · rw [if_pos c10]
                      norm_num
                    · rw [if_neg c10]
                      by_cases c11 : p = [110, 111, 118]
                      · rw [if_pos c11]
                        norm_num
                      · rw [if_neg c11]
                        by_cases c12 : p = [100, 101, 99]
                        · rw [if_pos c12]
                        · rw [if_neg c12]
                          norm_num

theorem parseMonth_range {s : List Nat} {mo : Nat} {r : List Nat}
    (h : parseMonth s = some (mo, r)) : 1 ≤ mo ∧ mo ≤ 12 := by
  unfold parseMonth at h
  by_cases hz : monthVal (lower3 s) = 0
  · rw [if_pos hz] at h
    exact absurd h (by simp)
  · rw [if_neg hz] at h
    injection h with h'
    injection h' with ha hb
    have := monthVal_le (lower3 s)
    omega

theorem parseYearEnd_le {s : List Nat} {y : Nat} (h : parseYearEnd s = some y) :
    y ≤ 9999 := by
  unfold parseYearEnd at h
  split_ifs at h with hc
  · obtain ⟨hlen, _⟩ := hc
    injection h with h'
    subst h'
    have hall : (digitsOf s).all isDigitB = true := all_takeWhileD isDigitB s
    have hlt := fieldVal_lt_pow (digitsOf s) hall
    rw [hlen] at hlt
    norm_num at hlt
    omega

theorem parseCanonClean_valid (s : List Nat) (t : DateTime) :
    parseCanonClean s = some t → ValidPyDT t := by
  intro h
  unfold parseCanonClean at h
  simp only [Option.bind_eq_some] at h
  obtain ⟨s1, _, s2, _, p1, hmo, s4, _, p2, _, s6, _, p3, _, s8, _, p4, _,
    s10, _, p5, _, s12, _, y, hy, hfin⟩ := h
  split_ifs at hfin with hcond
  · obtain ⟨hy1, hd1, hd2, hh1, hmi1, hss1⟩ := hcond
    obtain ⟨hmo1, hmo2⟩ := parseMonth_range hmo
    injection hfin with hfin'
    subst hfin'
    exact ⟨hy1, parseYearEnd_le hy, hmo1, hmo2, hd1, hd2, hh1, hmi1, hss1⟩

theorem parse_canon_date_valid {s : List Nat} {t : DateTime}
    (h : parse_canon_date s = some t) : ValidPyDT t :=
  parseCanonClean_valid (pyCleanDate s) t h

theorem find_idit_chunk_spec {data : List Nat} {pos : Nat} {payload : List Nat}
    (h : find_idit_chunk data = some (pos, payload)) :
    payload = (data.drop (pos + 8)).take payload.length ∧
      pos + 8 + payload.length ≤ data.length := by
  unfold find_idit_chunk at h
  cases hfs : findSub iditTag data with
  | none => rw [hfs] at h; exact absurd h (by simp)
  | some p =>
    rw [hfs] at h
    dsimp only at h
    split_ifs at h with h1 h2 h3
    simp only [Option.some.injEq, Prod.mk.injEq] at h
    obtain ⟨hp, hpay⟩ := h
    subst hp
    have hlen : payload.length =
        readLE32 ((data.drop (p + 4)).take 4) := by
      rw [← hpay]
      simp [List.length_take, List.length_drop]
      omega
    refine ⟨?_, ?_⟩
    · rw [hlen]
      exact hpay.symm
    · omega

theorem changer_find_of_find {data : List Nat} {pr : Nat × List Nat}
    (h : find_idit_chunk data = some pr) :
    changer_find_idit_chunk data = .ok (some pr) := by
  unfold find_idit_chunk at h
  unfold changer_find_idit_chunk
  cases hfs : findSub iditTag data with
  | none => rw [hfs] at h; exact absurd h (by simp)
  | some p =>
    rw [hfs] at h
    dsimp only at h
    dsimp only
    split_ifs at h with h1 h2 h3
    rw [if_neg h1, if_neg h2, if_neg h3]
    injection h with h'
    rw [h']

theorem padTrunc_length (size : Nat) (s : List Nat) :
    (padTrunc size s).length = size := by
  unfold padTrunc
  split_ifs with h
  · simp
    omega
  · simp
    omega

theorem slice_assign_self (data : List Nat) (a k : Nat) (repl : List Nat)
    (hr : repl = (data.drop a).take k) :
    slice_assign data a (a + k) repl = data := by
  subst hr
  unfold slice_assign
  have hd : (data.drop a).drop k = data.drop (a + k) := by rw [List.drop_drop]
  rw [← hd, List.append_assoc, List.take_append_drop, List.take_append_drop]

/-! ### C1: rollback on any exception after the backup was created -/

/--
C1: whenever either patcher's post-backup exception handler runs (any
exception during buffer load, chunk location, decoding/date arithmetic, or
write-back), the operation returns `False`, the target file's bytes equal
its pre-operation bytes, and the backup file no longer exists.
-/
theorem patch_rollback_on_exception (f : Faults) (orig : List Nat) (us : Int)
    (dry : Bool) (ts : DateTime) :
    ((fix_avi_date_inplace f orig us).raised = true →
      fix_avi_date_inplace f orig us = ⟨false, orig, none, true⟩) ∧
    ((write_avi_metadata_safe_inplace_modify f dry orig ts).raised = true →
      write_avi_metadata_safe_inplace_modify f dry orig ts =
        ⟨false, orig, none, true⟩) := by
  constructor
  · intro hr
    unfold fix_avi_date_inplace at hr ⊢
    by_cases h1 : f.copyFail = true
    · simp [h1] at hr
    · by_cases h2 : f.readFail = true
      · simp [h1, h2]
      · cases hfind : find_idit_chunk orig with
        | none => simp [h1, h2, hfind] at hr
        | some pr =>
          obtain ⟨pos, dd⟩ := pr
          cases hparse : parse_canon_date (asciiDecodeIgnore dd) with
          | none => simp [h1, h2, hfind, hparse] at hr
          | some cur =>
            cases hadd : dt_add cur us with
            | none => simp [h1, h2, hfind, hparse, hadd]
            | some nd =>
              by_cases h3 : f.writeFail = true
              · simp [h1, h2, hfind, hparse, hadd, h3]
              · simp [h1, h2, hfind, hparse, hadd, h3] at hr
  · intro hr
    unfold write_avi_metadata_safe_inplace_modify at hr ⊢
    by_cases h0 : dry = true
    · simp [h0] at hr
    · by_cases h1 : f.copyFail = true
      · simp [h0, h1] at hr
      · by_cases h2 : f.readFail = true
        · simp [h0, h1, h2]
        · cases hfind : changer_find_idit_chunk orig with
          | error e => simp [h0, h1, h2, hfind]
          | ok o =>
            cases o with
            | none => simp [h0, h1, h2, hfind] at hr
            | some pr =>
              obtain ⟨pos, dd⟩ := pr
              cases hparse : parse_canon_date (asciiDecodeIgnore dd) with
              | none => simp [h0, h1, h2, hfind, hparse] at hr
              | some cur =>
                by_cases h3 : f.writeFail = true
                · simp [h0, h1, h2, hfind, hparse, h3]
                · simp [h0, h1, h2, hfind, hparse, h3] at hr

/-- C1 witness: an injected read failure on a concrete file rolls back
both patchers. -/
theorem patch_rollback_on_exception_witness :
    fix_avi_date_inplace ⟨false, true, false⟩ [1, 2, 3] 0 =
        ⟨false, [1, 2, 3], none, true⟩ ∧
      write_avi_metadata_safe_inplace_modify ⟨false, true, false⟩ false [1, 2, 3]
          ⟨2006, 8, 28, 14, 14, 28⟩ = ⟨false, [1, 2, 3], none, true⟩ := by
  have h := patch_rollback_on_exception ⟨false, true, false⟩ [1, 2, 3] 0 false
    ⟨2006, 8, 28, 14, 14, 28⟩
  exact ⟨h.1 (by rfl), h.2 (by rfl)⟩

/-! ### C2: byte-length invariance of a successful patch -/

/--
C2: every successful patch writes a payload of exactly the original
payload's byte length at `[pos+8, pos+8+L)`; every byte outside that
window, the declared size field included, is bit-identical before and
after, and the window lies inside the file.
-/
theorem patch_byte_length_invariance (f : Faults) (orig : List Nat) (us : Int)
    (dry : Bool) (ts : DateTime) :
    ((fix_avi_date_inplace f orig us).ok = true →
      ∃ pos payload newPayload, find_idit_chunk orig = some (pos, payload) ∧
        pos + 8 + payload.length ≤ orig.length ∧
        newPayload.length = payload.length ∧
        (fix_avi_date_inplace f orig us).file =
          orig.take (pos + 8) ++ newPayload ++
            orig.drop (pos + 8 + payload.length)) ∧
    (dry = false →
      (write_avi_metadata_safe_inplace_modify f dry orig ts).ok = true →
      ∃ pos payload newPayload,
        changer_find_idit_chunk orig = .ok (some (pos, payload)) ∧
        pos + 8 + payload.length ≤ orig.length ∧
        newPayload.length = payload.length ∧
        (write_avi_metadata_safe_inplace_modify f dry orig ts).file =
          orig.take (pos + 8) ++ newPayload ++
            orig.drop (pos + 8 + payload.length)) := by
  constructor
  · intro hok
    unfold fix_avi_date_inplace at hok ⊢
    by_cases h1 : f.copyFail = true
    · simp [h1] at hok
    · by_cases h2 : f.readFail = true
      · simp [h1, h2] at hok
      · cases hfind : find_idit_chunk orig with
        | none => simp [h1, h2, hfind] at hok
        | some pr =>
          obtain ⟨pos, dd⟩ := pr
          cases hparse : parse_canon_date (asciiDecodeIgnore dd) with
          | none => simp [h1, h2, hfind, hparse] at hok
          | some cur =>
            cases hadd : dt_add cur us with
            | none => simp [h1, h2, hfind, hparse, hadd] at hok
            | some nd =>
              by_cases h3 : f.writeFail = true
              · simp [h1, h2, hfind, hparse, hadd, h3] at hok
              · obtain ⟨hwin, hbound⟩ := find_idit_chunk_spec hfind
                refine ⟨pos, dd, padTrunc dd.length (format_canon_date nd),
                  rfl, hbound, padTrunc_length _ _, ?_⟩
                simp [h1, h2, hfind, hparse, hadd, h3, slice_assign]
  · intro hdry hok
    subst hdry
    unfold write_avi_metadata_safe_inplace_modify at hok ⊢
    by_cases h1 : f.copyFail = true
    · simp [h1] at hok
    · by_cases h2 : f.readFail = true
      · simp [h1, h2] at hok
      · cases hfind : changer_find_idit_chunk orig with
        | error e => simp [h1, h2, hfind] at hok
        | ok o =>
          cases o with
          | none => simp [h1, h2, hfind] at hok
          | some pr =>
            obtain ⟨pos, dd⟩ := pr
            cases hparse : parse_canon_date (asciiDecodeIgnore dd) with
            | none => simp [h1, h2, hfind, hparse] at hok
            | some cur =>
              by_cases h3 : f.writeFail = true
              · simp [h1, h2, hfind, hparse, h3] at hok
              · have hfind2 : find_idit_chunk orig = some (pos, dd) := by
                  unfold find_idit_chunk
                  unfold changer_find_idit_chunk at hfind
                  cases hfs : findSub iditTag orig with
                  | none => rw [hfs] at hfind; exact absurd hfind (by simp)
                  | some p =>
                    rw [hfs] at hfind
                    dsimp only at hfind
                    dsimp only
                    split_ifs at hfind with hc1 hc2 hc3 <;> simp_all
                    obtain ⟨hp, hdd⟩ := hfind
                    subst hp
                    exact hdd
                obtain ⟨hwin, hbound⟩ := find_idit_chunk_spec hfind2
                refine ⟨pos, dd, padTrunc dd.length (format_canon_date ts),
                  rfl, hbound, padTrunc_length _ _, ?_⟩
                simp [h1, h2, hfind, hparse, h3, slice_assign]

/-- C2 witness: a successful concrete patch (zero delta on a minimal file
whose payload is `"MON AUG 28 14:14:28 0006"`). -/
theorem patch_byte_length_invariance_witness :
    (fix_avi_date_inplace noFaults
      ([73, 68, 73, 84, 24, 0, 0, 0] ++ [77, 79, 78, 32, 65, 85, 71, 32, 50, 56,
        32, 49, 52, 58, 49, 52, 58, 50, 56, 32, 48, 48, 48, 54]) 0).ok = true ∧
      ∃ pos payload newPayload,
        find_idit_chunk
          ([73, 68, 73, 84, 24, 0, 0, 0] ++ [77, 79, 78, 32, 65, 85, 71, 32, 50, 56,
        32, 49, 52, 58, 49, 52, 58, 50, 56, 32, 48, 48, 48, 54]) = some (pos, payload) ∧
        pos + 8 + payload.length ≤
          ([73, 68, 73, 84, 24, 0, 0, 0] ++ [77, 79, 78, 32, 65, 85, 71, 32, 50, 56,
        32, 49, 52, 58, 49, 52, 58, 50, 56, 32, 48, 48, 48, 54]).length ∧
        newPayload.length = payload.length ∧
        (fix_avi_date_inplace noFaults
          ([73, 68, 73, 84, 24, 0, 0, 0] ++ [77, 79, 78, 32, 65, 85, 71, 32, 50, 56,
        32, 49, 52, 58, 49, 52, 58, 50, 56, 32, 48, 48, 48, 54]) 0).file =
          ([73, 68, 73, 84, 24, 0, 0, 0] ++ [77, 79, 78, 32, 65, 85, 71, 32, 50, 56,
        32, 49, 52, 58, 49, 52, 58, 50, 56, 32, 48, 48, 48, 54]).take (pos + 8) ++ newPayload ++
            ([73, 68, 73, 84, 24, 0, 0, 0] ++ [77, 79, 78, 32, 65, 85, 71, 32, 50, 56,
        32, 49, 52, 58, 49, 52, 58, 50, 56, 32, 48, 48, 48, 54]).drop (pos + 8 + payload.length) := by
  have hok : (fix_avi_date_inplace noFaults
      ([73, 68, 73, 84, 24, 0, 0, 0] ++ [77, 79, 78, 32, 65, 85, 71, 32, 50, 56,
        32, 49, 52, 58, 49, 52, 58, 50, 56, 32, 48, 48, 48, 54]) 0).ok = true := by decide
  exact ⟨hok, (patch_byte_length_invariance noFaults
    ([73, 68, 73, 84, 24, 0, 0, 0] ++ [77, 79, 78, 32, 65, 85, 71, 32, 50, 56,
        32, 49, 52, 58, 49, 52, 58, 50, 56, 32, 48, 48, 48, 54]) 0 false ⟨1, 1, 1, 0, 0, 0⟩).1 hok⟩

/-! ### C3: behavior when the payload fails to decode -/

/-- C3 counterexample: on a file whose IDIT chunk is located but whose
payload `"XXXX"` fails to decode, `fix_avi_date_inplace` reports failure
and leaves the file untouched, but the backup file is still present
afterwards: the decode-failure branch returns before any backup cleanup. -/
theorem fixer_keeps_backup_on_decode_failure :
    fix_avi_date_inplace noFaults [73, 68, 73, 84, 4, 0, 0, 0, 88, 88, 88, 88] 0 =
      ⟨false, [73, 68, 73, 84, 4, 0, 0, 0, 88, 88, 88, 88],
        some [73, 68, 73, 84, 4, 0, 0, 0, 88, 88, 88, 88], false⟩ := by
  rfl

/--
C3 (amended): when the chunk is located but its payload fails to decode,
both patchers report failure and leave the file's bytes untouched;
`write_avi_metadata_safe_inplace_modify` removes its backup, but
`fix_avi_date_inplace` leaves the backup file behind.
-/
theorem patch_decode_failure_behavior (f : Faults) (orig payload : List Nat)
    (pos : Nat) (us : Int) (ts : DateTime)
    (hc : f.copyFail = false) (hrd : f.readFail = false)
    (hfind : find_idit_chunk orig = some (pos, payload))
    (hdec : parse_canon_date (asciiDecodeIgnore payload) = none) :
    fix_avi_date_inplace f orig us = ⟨false, orig, some orig, false⟩ ∧
      write_avi_metadata_safe_inplace_modify f false orig ts =
        ⟨false, orig, none, false⟩ := by
  have h2 := changer_find_of_find hfind
  constructor
  · simp [fix_avi_date_inplace, hc, hrd, hfind, hdec]
  · simp [write_avi_metadata_safe_inplace_modify, hc, hrd, h2, hdec]

/-- C3 witness: the amended theorem applied to the concrete undecodable
file, for both patchers. -/
theorem patch_decode_failure_behavior_witness :
    fix_avi_date_inplace noFaults [73, 68, 73, 84, 4, 0, 0, 0, 88, 88, 88, 88] 0 =
      ⟨false, [73, 68, 73, 84, 4, 0, 0, 0, 88, 88, 88, 88],
        some [73, 68, 73, 84, 4, 0, 0, 0, 88, 88, 88, 88], false⟩ ∧
      write_avi_metadata_safe_inplace_modify noFaults false
        [73, 68, 73, 84, 4, 0, 0, 0, 88, 88, 88, 88] ⟨2006, 8, 28, 14, 14, 28⟩ =
      ⟨false, [73, 68, 73, 84, 4, 0, 0, 0, 88, 88, 88, 88], none, false⟩ :=
  patch_decode_failure_behavior noFaults
    [73, 68, 73, 84, 4, 0, 0, 0, 88, 88, 88, 88] [88, 88, 88, 88] 0 0
    ⟨2006, 8, 28, 14, 14, 28⟩ rfl rfl (by decide) (by decide)

/-! ### C8: zero-delta patches -/

/-- C8 counterexample: a file whose payload `"mon AUG 28 14:14:28 0006"`
decodes successfully (`strptime` matching is case-insensitive), yet the
zero-day patch succeeds and changes the file: the re-encoded canonical
payload `"MON AUG 28 14:14:28 0006"` differs from the stored bytes. -/
theorem fixer_zero_delta_changes_noncanonical :
    (fix_avi_date_inplace noFaults
        [73, 68, 73, 84, 24, 0, 0, 0, 109, 111, 110, 32, 65, 85, 71, 32, 50, 56,
        32, 49, 52, 58, 49, 52, 58, 50, 56, 32, 48, 48, 48, 54] 0).ok = true ∧
      (fix_avi_date_inplace noFaults
        [73, 68, 73, 84, 24, 0, 0, 0, 109, 111, 110, 32, 65, 85, 71, 32, 50, 56,
        32, 49, 52, 58, 49, 52, 58, 50, 56, 32, 48, 48, 48, 54] 0).file ≠
        [73, 68, 73, 84, 24, 0, 0, 0, 109, 111, 110, 32, 65, 85, 71, 32, 50, 56,
        32, 49, 52, 58, 49, 52, 58, 50, 56, 32, 48, 48, 48, 54] := by
  decide

/--
C8 (amended): a zero-day patch on a file whose located payload decodes
succeeds and leaves the bytes unchanged provided the stored payload is
exactly the canonical encoding of the timestamp it decodes to; a decodable
but non-canonical payload (e.g. differing in letter case) is rewritten in
canonical form, changing the file.
-/
theorem fixer_zero_delta_identity (f : Faults) (orig payload : List Nat)
    (pos : Nat) (t : DateTime)
    (hc : f.copyFail = false) (hrd : f.readFail = false)
    (hw : f.writeFail = false)
    (hfind : find_idit_chunk orig = some (pos, payload))
    (hdec : parse_canon_date (asciiDecodeIgnore payload) = some t)
    (hcanon : padTrunc payload.length (format_canon_date t) = payload) :
    fix_avi_date_inplace f orig 0 = ⟨true, orig, none, false⟩ := by
  have hadd : dt_add t 0 = some t := dt_add_zero t (parse_canon_date_valid hdec)
  have hfile : slice_assign orig (pos + 8) (pos + 8 + payload.length) payload =
      orig :=
    slice_assign_self orig (pos + 8) payload.length payload
      (find_idit_chunk_spec hfind).1
  simp [fix_avi_date_inplace, hc, hrd, hfind, hdec, hadd, hw, hcanon, hfile]

/-- C8 witness: the amended theorem applied to a concrete file whose stored
payload `"MON AUG 28 14:14:28 0006"` is canonical for the timestamp it
decodes to; the zero-day patch returns success with the file unchanged. -/
theorem fixer_zero_delta_identity_witness :
    fix_avi_date_inplace noFaults
      [73, 68, 73, 84, 24, 0, 0, 0, 77, 79, 78, 32, 65, 85, 71, 32, 50, 56,
        32, 49, 52, 58, 49, 52, 58, 50, 56, 32, 50, 48, 48, 54] 0 =
      ⟨true, [73, 68, 73, 84, 24, 0, 0, 0, 77, 79, 78, 32, 65, 85, 71, 32, 50, 56,
        32, 49, 52, 58, 49, 52, 58, 50, 56, 32, 50, 48, 48, 54], none, false⟩ :=
  fixer_zero_delta_identity noFaults
    [73, 68, 73, 84, 24, 0, 0, 0, 77, 79, 78, 32, 65, 85, 71, 32, 50, 56,
        32, 49, 52, 58, 49, 52, 58, 50, 56, 32, 50, 48, 48, 54]
    [77, 79, 78, 32, 65, 85, 71, 32, 50, 56, 32, 49, 52, 58, 49, 52, 58, 50, 56, 32, 50, 48, 48, 54]
    0 ⟨2006, 8, 28, 14, 14, 28⟩ rfl rfl rfl (by decide) (by decide) (by decide)

end ImageTools
